import Mathlib

/-!
Verification of the kastle-demo outbound-call engine core.

Shallow embedding of:
- app/utils/transition_rules.py (GLOBAL_TRIGGERS, TRANSITION_RULES, get_next_node)
- app/utils/template_render.py  (render_template pipeline)
- app/utils/context_manager.py  (update_context)
- app/utils/node_engine.py      (NodeEngine.process, execute_apis)

Python values are modelled by the inductive PyVal below.  Dictionaries are
association lists keyed by String.  A predicate that can raise a Python
exception is modelled as returning Option Bool, with none standing for the
raised exception.
-/

/--
Model of a Python value as it occurs in the engine's dictionaries.
JSON arrays are not modelled: the response-mapping walk in
NodeEngine.execute_apis only descends through dict keys
(value.get(part) with an isinstance dict guard), and no embedded claim
stores or traverses an array.
-/
inductive PyVal where
  | none
  | bool (b : Bool)
  | int (n : Int)
  | str (s : String)
  | obj (fields : List (String × PyVal))

/-- Shorthand for a Python string value. -/
def sv (s : String) : PyVal := PyVal.str s

/-- Python truthiness of a value (bool(x)). -/
def truthy : PyVal → Bool
  | PyVal.none => false
  | PyVal.bool b => b
  | PyVal.int n => n != 0
  | PyVal.str s => s != ""
  | PyVal.obj fs => !fs.isEmpty

/-- Numeric view used by Python ==/>= across bool and int. -/
def toNum : PyVal → Option Int
  | PyVal.bool b => some (if b then 1 else 0)
  | PyVal.int n => some n
  | _ => Option.none

/--
Python == between engine values.  Numbers (bool and int) compare
numerically, strings compare by content, None equals only None, and
mixed scalar types compare unequal without raising.  Structural equality
on two containers is modelled as false: every comparison performed by the
embedded rule predicates is against a scalar literal, so the
container-vs-container case is never exercised.
-/
def pyEq (a b : PyVal) : Bool :=
  match toNum a, toNum b with
  | some x, some y => x == y
  | _, _ =>
    match a, b with
    | PyVal.str s, PyVal.str t => s == t
    | PyVal.none, PyVal.none => true
    | _, _ => false

/-- Python membership x in [l1, l2, ...] (uses ==). -/
def pyMem (x : PyVal) (l : List PyVal) : Bool :=
  l.any (fun y => pyEq x y)

/-- Python x >= m for an int literal m; raises (none) unless x is numeric. -/
def pyGe (x : PyVal) (m : Int) : Option Bool :=
  match toNum x with
  | some n => some (decide (m ≤ n))
  | Option.none => Option.none

/-- A Python dict with string keys. -/
abbrev Dict := List (String × PyVal)

/-- Key lookup in a dict (first binding wins). -/
def dlookup (d : Dict) (k : String) : Option PyVal :=
  match d with
  | [] => Option.none
  | (k1, v1) :: rest => if k1 = k then some v1 else dlookup rest k

/-- d.get(k) with default None. -/
def dget (d : Dict) (k : String) : PyVal :=
  (dlookup d k).getD PyVal.none

/-- d.get(k, dflt). -/
def dgetD (d : Dict) (k : String) (dflt : PyVal) : PyVal :=
  (dlookup d k).getD dflt

/-- d[k] = v : replace the first binding of k, or append a new one. -/
def dset (d : Dict) (k : String) (v : PyVal) : Dict :=
  match d with
  | [] => [(k, v)]
  | (k', v') :: rest =>
    if k' = k then (k, v) :: rest else (k', v') :: dset rest k v

example : dget [("a", sv "x")] "a" = sv "x" := by rfl
example : truthy (dget [] "a") = false := by rfl
example : pyEq (PyVal.bool true) (PyVal.int 1) = true := by decide

/-! ## Transition rules (app/utils/transition_rules.py) -/

/--
One transition rule: (condition, target node, description), translated from
the TransitionRule tuples of transition_rules.py.  cond returns none when
the Python lambda would raise.
-/
structure Rule where
  cond : Dict → Dict → Option Bool
  target : String
  descr : String

/-- Rule lambda v, c: v.get(key) (truthiness). -/
def tv (k tgt d : String) : Rule :=
  ⟨fun v _ => some (truthy (dget v k)), tgt, d⟩

/-- Rule lambda v, c: c.get(key) (truthiness). -/
def tc (k tgt d : String) : Rule :=
  ⟨fun _ c => some (truthy (dget c k)), tgt, d⟩

/-- Rule lambda v, c: v.get(k1) or v.get(k2). -/
def tvor (k1 k2 tgt d : String) : Rule :=
  ⟨fun v _ => some (truthy (dget v k1) || truthy (dget v k2)), tgt, d⟩

/-- Rule lambda v, c: v.get(k1) and v.get(k2). -/
def tvand (k1 k2 tgt d : String) : Rule :=
  ⟨fun v _ => some (truthy (dget v k1) && truthy (dget v k2)), tgt, d⟩

/-- Rule lambda v, c: v.get(k1) and v.get(k2) and v.get(k3). -/
def tvand3 (k1 k2 k3 tgt d : String) : Rule :=
  ⟨fun v _ => some (truthy (dget v k1) && truthy (dget v k2) && truthy (dget v k3)), tgt, d⟩

/-- Rule lambda v, c: True. -/
def always (tgt d : String) : Rule := ⟨fun _ _ => some true, tgt, d⟩

/-- Rule lambda v, c: c.get("dob_attempts", 0) >= 5 (raises on non-numeric). -/
def dobAttemptsCeiling (tgt d : String) : Rule :=
  ⟨fun _ c => pyGe (dgetD c "dob_attempts" (PyVal.int 0)) 5, tgt, d⟩

/-- Rule lambda v, c: v.get(k) == True. -/
def veqTrue (k tgt d : String) : Rule :=
  ⟨fun v _ => some (pyEq (dget v k) (PyVal.bool true)), tgt, d⟩

/-- Rule lambda v, c: v.get(k) == False. -/
def veqFalse (k tgt d : String) : Rule :=
  ⟨fun v _ => some (pyEq (dget v k) (PyVal.bool false)), tgt, d⟩

/-- Rule lambda v, c: c.get("api_status_code") == 200. -/
def apiOk (tgt d : String) : Rule :=
  ⟨fun _ c => some (pyEq (dget c "api_status_code") (PyVal.int 200)), tgt, d⟩

/-- Rule lambda v, c: c.get("api_status_code") and c.get("api_status_code") != 200. -/
def apiFailed (tgt d : String) : Rule :=
  ⟨fun _ c =>
    some (truthy (dget c "api_status_code") &&
          !pyEq (dget c "api_status_code") (PyVal.int 200)), tgt, d⟩

/-- GLOBAL_TRIGGERS: checked for all nodes before node-specific rules. -/
def GLOBAL_TRIGGERS : List Rule :=
  [ tv "user_requests_live_agent" "n34" "User requests live agent",
    tv "user_requests_supervisor" "n34" "User requests supervisor",
    tv "user_requests_transfer" "n34" "User requests transfer",
    tv "user_mentions_attorney" "n5" "Attorney notification",
    tv "user_represented_by_attorney" "n5" "Represented by attorney",
    tv "user_requests_cease_communication" "n11" "Cease and desist",
    tv "user_requests_written_only" "n11" "Written communication only",
    tv "user_says_wrong_number" "n69" "Wrong number",
    tv "wrong_person" "n69" "Wrong person",
    tv "user_has_complex_question" "n34" "Complex question - transfer",
    tv "user_asks_about_nsf" "n34" "NSF question - transfer",
    tv "user_asks_about_escrow" "n34" "Escrow question - transfer" ]

/-- n45 rule: v.get("occupancy") and v.get("occupancy") not in ["N/A", "null", None, ""]. -/
def occupancyValid : Rule :=
  ⟨fun v _ =>
    some (truthy (dget v "occupancy") &&
          !pyMem (dget v "occupancy") [sv "N/A", sv "null", PyVal.none, sv ""]),
   "n20", "Occupancy verified - check disaster"⟩

/-- n67 rule: amount and date both present and not NA/empty. -/
def paymentDetailsConfirmed : Rule :=
  ⟨fun v _ =>
    some (truthy (dget v "user_provided_payment_amount") &&
          !pyMem (dget v "user_provided_payment_amount") [sv "NA", sv "N/A", PyVal.none, sv ""] &&
          truthy (dget v "user_provided_payment_date") &&
          !pyMem (dget v "user_provided_payment_date") [sv "NA", sv "N/A", PyVal.none, sv ""]),
   "n1", "Payment details confirmed - collect account"⟩

/-- n1 rule: c.get("RestrictAutoPayDraft") == "Y" and v.get("mail_date_confirmed"). -/
def certifiedFundsDate : Rule :=
  ⟨fun v c =>
    some (pyEq (dget c "RestrictAutoPayDraft") (sv "Y") && truthy (dget v "mail_date_confirmed")),
   "n12", "Certified funds date confirmed"⟩

/-- TRANSITION_RULES: node-specific rule lists, in declared order. -/
def TRANSITION_RULES : List (String × List Rule) :=
  [ ("n61",
     [ tvor "is_borrower" "confirmed_identity" "n68" "Identity confirmed - go to DOB",
       tv "party_name" "n68" "Got party name - go to DOB",
       tv "speaking_to_borrower" "n68" "Speaking to borrower - go to DOB",
       tv "user_not_available" "n8" "Borrower not available - offer callback",
       tv "call_back_later" "n8" "Call back later requested" ]),
    ("n68",
     [ tv "dob_verified" "n41" "DOB correct - go to Mini Miranda",
       tv "dob_correct" "n41" "DOB matches - go to Mini Miranda",
       tv "dob_mismatch" "n32" "DOB wrong - notify mismatch",
       tv "dob_incorrect" "n32" "DOB incorrect - notify mismatch",
       dobAttemptsCeiling "n34" "Too many DOB attempts - transfer" ]),
    ("n32", [ always "n22" "Always go to second DOB attempt" ]),
    ("n22",
     [ tvor "dob_verified" "dob_reconfirmed" "n41" "DOB correct - go to Mini Miranda",
       tv "dob_correct" "n41" "DOB matches - go to Mini Miranda",
       dobAttemptsCeiling "n34" "Too many attempts - transfer",
       tvor "dob_still_wrong" "dob_mismatch" "n26" "Still wrong - end call" ]),
    ("n26", [ always "END" "DOB verification failed - end call" ]),
    ("n41",
     [ tv "mini_miranda_complete" "n45" "Disclosure complete - check occupancy",
       tv "user_acknowledges" "n45" "User acknowledged - check occupancy",
       tv "proceed_to_business" "n45" "Ready to proceed - check occupancy" ]),
    ("n45",
     [ occupancyValid,
       tv "occupancy_verified" "n20" "Occupancy verified flag - check disaster",
       tv "occupancy_confirmed" "n20" "Occupancy confirmed flag - check disaster",
       tv "occupancy_status" "n20" "Got occupancy status - check disaster" ]),
    ("n20",
     [ veqTrue "affected_by_disaster" "n37" "Disaster affected - loss mitigation",
       veqTrue "disaster_impact" "n37" "Disaster impact - loss mitigation",
       veqFalse "affected_by_disaster" "n28" "Not affected - continue to payment",
       tv "not_affected_by_disaster" "n28" "Not affected - continue to payment",
       tv "no_disaster_impact" "n28" "No impact - continue to payment" ]),
    ("n28", [ always "n49" "Continue to payment collection" ]),
    ("n37",
     [ tv "wants_appointment" "n56" "User wants appointment",
       tv "schedule_appointment" "n56" "Schedule appointment requested",
       tv "wants_callback" "n8" "User wants callback",
       tv "user_wants_to_end_call" "n25" "User wants to end call" ]),
    ("n49",
     [ tv "user_claims_payment_made" "n51" "User claims already paid - confirmation",
       tv "payment_already_sent" "n51" "Payment already sent - confirmation",
       tv "user_wants_set_up_later" "n51" "User wants to set up later - promise",
       tv "declined_bank_account_setup_today" "n51" "Declined setup - promise",
       tv "will_pay_independently" "n51" "Will pay independently - promise",
       tvand "payment_date_received" "payment_amount_received" "n67" "Got date and amount - validate",
       tvand "user_provided_payment_amount" "upd_extracted_payment_date" "n67" "Have amount and date - validate",
       tvand3 "payment_amount_received" "collection_waterfall_completed" "total_amount_due_informed" "n67" "Amount confirmed - proceed to validation",
       tvand "borrower_wants_options" "options_question_asked" "n23" "User wants payment options",
       tv "borrower_requests_options_directly" "n23" "User directly requests assistance programs",
       tvand "needs_assistance" "options_question_asked" "n23" "User needs assistance - show options",
       tvand "financial_hardship" "options_question_asked" "n23" "Financial hardship - show options",
       tv "capture_delinquency_reason" "n19" "Capture delinquency reason" ]),
    ("n19",
     [ tvor "reason_captured" "delinquency_reason" "n49" "Reason captured - back to payment" ]),
    ("n67",
     [ tv "borrower_requests_options_directly" "n23" "User asks about options - show options",
       paymentDetailsConfirmed,
       tv "validation_confirmed" "n1" "Validated - collect account",
       tv "user_confirms_amount" "n1" "Amount confirmed - collect account",
       tv "details_confirmed" "n1" "Details confirmed - collect account",
       tv "user_wants_to_change_amount" "n49" "Change amount - back to collection",
       tv "user_wants_to_change_date" "n49" "Change date - back to collection" ]),
    ("n1",
     [ tv "declined_bank_account_setup_today" "n51" "Declined - promise to pay",
       tv "user_wants_set_up_later" "n51" "Set up later - promise to pay",
       tv "will_pay_online" "n51" "Will pay online - promise",
       tv "will_mail_check" "n51" "Will mail check - promise",
       tv "existing_bank_account_confirmed" "n42" "Existing account confirmed - NACHA",
       tv "new_bank_account_confirmed" "n42" "New account confirmed - NACHA",
       tv "account_ready" "n42" "Account ready - NACHA",
       tv "certified_funds_mail_date_confirmed" "n12" "Certified funds confirmed",
       certifiedFundsDate ]),
    ("n42",
     [ tv "user_says_no" "n49" "User declined - back to collection",
       tv "user_declines_authorization" "n49" "Declined auth - back to collection",
       tv "user_wants_to_change_amtdate" "n49" "Change requested - back to collection",
       tv "user_wants_different_amount" "n49" "Different amount - back to collection",
       tv "nacha_permission_granted" "n50" "Permission granted - process",
       tv "user_authorizes_payment" "n50" "Authorized - process",
       tv "user_confirms_authorization" "n50" "Confirmed auth - process" ]),
    ("n50",
     [ tv "payment_processed" "n51" "Payment processed - confirmation",
       apiOk "n51" "API success - confirmation",
       tc "confirmation_number" "n51" "Got confirmation - success",
       apiFailed "n34" "API failed - transfer",
       tc "api_error" "n34" "API error - transfer",
       tv "payment_failed" "n34" "Payment failed - transfer" ]),
    ("n51",
     [ tv "call_complete" "n25" "Call complete - end",
       tv "no_more_questions" "n25" "No more questions - end",
       tv "user_satisfied" "n25" "User satisfied - end",
       tv "goodbye_said" "n25" "Goodbye - end" ]),
    ("n23",
     [ tv "user_has_no_other_questions" "n49" "No more questions - back to payment",
       tv "option_selected" "n49" "Option selected - back to payment",
       tv "ready_to_pay" "n49" "Ready to pay - back to payment",
       tv "wants_appointment" "n56" "Wants appointment - schedule",
       tv "schedule_appointment" "n56" "Schedule appointment",
       tv "wants_callback" "n8" "Wants callback",
       tv "needs_more_time" "n8" "Needs more time - offer callback" ]),
    ("n12",
     [ tv "user_has_no_other_questions" "n25" "No questions - end call",
       tv "call_complete" "n25" "Complete - end call" ]),
    ("n34",
     [ tv "transfer_intake_complete" "n35" "Intake complete - confirm transfer",
       tvand "transfer_reason" "ready_to_transfer" "n35" "Ready to transfer" ]),
    ("n35",
     [ tv "user_confirms_transfer" "n36" "Transfer confirmed - execute",
       tv "proceed_with_transfer" "n36" "Proceed - execute transfer",
       tv "user_cancels_transfer" "n49" "Cancelled - back to payment" ]),
    ("n36",
     [ tv "transfer_completed" "n2" "Transfer done - end",
       tc "transfer_completed" "n2" "Transfer executed - end" ]),
    ("n5",
     [ tv "attorney_noted" "n25" "Attorney noted - end call",
       always "n25" "End call after attorney notification" ]),
    ("n11", [ always "n25" "Cease communication - end call" ]),
    ("n8",
     [ tv "callback_time_confirmed" "n9" "Callback time confirmed",
       tv "callback_scheduled" "n9" "Callback scheduled",
       tv "user_declines_callback" "n25" "Declined callback - end",
       tv "no_callback_needed" "n25" "No callback - end" ]),
    ("n9", [ always "n25" "Callback confirmed - end call" ]),
    ("n56",
     [ tv "user_time_preference" "n6" "Got preference - fetch slots",
       tv "preferred_day" "n6" "Got preferred day - fetch slots",
       tv "preferred_time" "n6" "Got preferred time - fetch slots" ]),
    ("n6",
     [ apiOk "n4" "Slots received - offer times",
       tv "slots_available" "n4" "Slots available - offer times",
       tc "api_error" "n34" "API error - transfer" ]),
    ("n4",
     [ tv "specific_time_selected" "n3" "Time selected - confirm",
       tv "user_selected_slot" "n3" "Slot selected - confirm",
       tv "user_appt_conflict" "n56" "Conflict - get new preference",
       tv "none_work" "n56" "None work - get new preference" ]),
    ("n3",
     [ tv "appointment_confirmed" "n62" "Appointment booked - success",
       tv "appt_booked" "n62" "Booked - success",
       tv "user_cancels" "n56" "Cancelled - back to scheduling" ]),
    ("n62", [ always "n25" "Appointment done - end call" ]),
    ("n69", [ always "END" "Wrong number - end call" ]),
    ("n25", [ always "END" "Standard call ending" ]),
    ("n24", [ always "END" "Alternative call ending" ]),
    ("n2", [ always "END" "Transfer completed ending" ]) ]

/-- TRANSITION_RULES.get(current_node, []). -/
def nodeRules (current : String) : List Rule :=
  (List.lookup current TRANSITION_RULES).getD []

/--
The rule loop of get_next_node: evaluate each condition in order; a raised
exception (none) is logged and skipped; the first condition returning a
truthy value selects its target.
-/
def scanRules (v c : Dict) : List Rule → Option String
  | [] => Option.none
  | r :: rs =>
    match r.cond v c with
    | some true => some r.target
    | _ => scanRules v c rs

/--
get_next_node(current_node, extracted_vars, context): global triggers are
checked first and override node-specific rules; then the current node's
rules in declared order; the default is a self-loop (this covers both the
"no transition rules found" early return and the fallthrough).
-/
def get_next_node (current_node : String) (extracted_vars context : Dict) : String :=
  match scanRules extracted_vars context GLOBAL_TRIGGERS with
  | some t => t
  | Option.none =>
    match scanRules extracted_vars context (nodeRules current_node) with
    | some t => t
    | Option.none => current_node

example : get_next_node "n68" [("dob_verified", PyVal.bool true)]
    [("dob_attempts", PyVal.int 5)] = "n41" := by rfl
example : get_next_node "n68" [] [("dob_attempts", PyVal.int 5)] = "n34" := by rfl
example : get_next_node "n22" [("dob_mismatch", PyVal.bool true)]
    [("dob_attempts", sv "many")] = "n26" := by rfl
example : get_next_node "nope" [] [] = "nope" := by rfl

/-! ## Lemmas about the rule loop -/

theorem scanRules_eq_find (v c : Dict) (rs : List Rule) :
    scanRules v c rs = (rs.find? (fun r => r.cond v c == some true)).map Rule.target := by
  induction rs with
  | nil => rfl
  | cons r rs ih =>
    simp only [scanRules, List.find?]
    cases h : r.cond v c with
    | none => simp [h, ih]
    | some b =>
      cases b with
      | true => simp [h]
      | false => simp [h, ih]

theorem scanRules_none_iff (v c : Dict) (rs : List Rule) :
    scanRules v c rs = Option.none ↔ ∀ r ∈ rs, r.cond v c ≠ some true := by
  induction rs with
  | nil => simp [scanRules]
  | cons r rs ih =>
    simp only [scanRules]
    cases h : r.cond v c with
    | none =>
      simp only [ih, List.mem_cons]
      constructor
      · rintro hall r' (rfl | hr')
        · simp [h]
        · exact hall r' hr'
      · intro hall r' hr'
        exact hall r' (Or.inr hr')
    | some b =>
      cases b with
      | true =>
        simp only [List.mem_cons]
        constructor
        · intro hfalse
          exact absurd hfalse (by simp)
        · intro hall
          exact absurd h (hall r (Or.inl rfl))
      | false =>
        simp only [ih, List.mem_cons]
        constructor
        · rintro hall r' (rfl | hr')
          · simp [h]
          · exact hall r' hr'
        · intro hall r' hr'
          exact hall r' (Or.inr hr')

theorem scanRules_cons_false (v c : Dict) (r : Rule) (rs : List Rule)
    (h : r.cond v c = some false) :
    scanRules v c (r :: rs) = scanRules v c rs := by
  simp [scanRules, h]

/--
C1.  If some global trigger's predicate is true and some rule of the current
node's own rule set is also true, get_next_node returns the target of the
first global trigger (in declared order) whose predicate is true, never the
node-local rule's target.
-/
theorem global_trigger_wins (cur : String) (v c : Dict)
    (hg : ∃ r ∈ GLOBAL_TRIGGERS, r.cond v c = some true)
    (_hn : ∃ r ∈ nodeRules cur, r.cond v c = some true) :
    ∃ r0, GLOBAL_TRIGGERS.find? (fun r => r.cond v c == some true) = some r0 ∧
      r0.cond v c = some true ∧ get_next_node cur v c = r0.target := by
  obtain ⟨r, hr, hcond⟩ := hg
  have hsome : (GLOBAL_TRIGGERS.find? (fun r => r.cond v c == some true)).isSome := by
    rw [List.find?_isSome]
    exact ⟨r, hr, by simp [hcond]⟩
  obtain ⟨r0, hr0⟩ := Option.isSome_iff_exists.mp hsome
  refine ⟨r0, hr0, ?_, ?_⟩
  · have := List.find?_some hr0
    simpa using this
  · unfold get_next_node
    rw [scanRules_eq_find, hr0]
    rfl

/-- Witness for global_trigger_wins at a concrete input (node n61). -/
theorem global_trigger_wins_witness :
    ∃ r0, (GLOBAL_TRIGGERS.find? (fun r =>
        r.cond [("user_requests_live_agent", PyVal.bool true), ("is_borrower", PyVal.bool true)]
          [] == some true)) = some r0 ∧
      r0.cond [("user_requests_live_agent", PyVal.bool true), ("is_borrower", PyVal.bool true)]
          [] = some true ∧
      get_next_node "n61"
        [("user_requests_live_agent", PyVal.bool true), ("is_borrower", PyVal.bool true)] []
        = r0.target :=
  global_trigger_wins "n61"
    [("user_requests_live_agent", PyVal.bool true), ("is_borrower", PyVal.bool true)] []
    ⟨tv "user_requests_live_agent" "n34" "User requests live agent",
      by unfold GLOBAL_TRIGGERS; exact List.mem_cons_self _ _, by rfl⟩
    ⟨tvor "is_borrower" "confirmed_identity" "n68" "Identity confirmed - go to DOB",
      by unfold nodeRules TRANSITION_RULES; exact List.mem_cons_self _ _, by rfl⟩

/--
C2 counterexample.  At node n68 with the DOB retry counter at the ceiling
(dob_attempts = 5), a simultaneously true dob_verified flag wins because the
ceiling rule is declared last in n68's rule list: the engine goes to n41,
not to the escalation node n34.
-/
theorem dob_ceiling_not_unconditional :
    get_next_node "n68" [("dob_verified", PyVal.bool true)] [("dob_attempts", PyVal.int 5)]
      = "n41" ∧ ("n41" : String) ≠ "n34" :=
  ⟨by rfl, by decide⟩

/--
C2 amended.  At node n68, once dob_attempts has reached the ceiling of 5 the
engine transitions to the escalation node n34, provided no global trigger is
true and none of the four DOB-result flags (dob_verified, dob_correct,
dob_mismatch, dob_incorrect) is truthy in the same turn; those rules are
declared before the ceiling rule and would win otherwise.
-/
theorem dob_ceiling_forces_transfer (v c : Dict) (n : Int)
    (hg : ∀ r ∈ GLOBAL_TRIGGERS, r.cond v c ≠ some true)
    (h1 : truthy (dget v "dob_verified") = false)
    (h2 : truthy (dget v "dob_correct") = false)
    (h3 : truthy (dget v "dob_mismatch") = false)
    (h4 : truthy (dget v "dob_incorrect") = false)
    (h5 : dlookup c "dob_attempts" = some (PyVal.int n))
    (h6 : 5 ≤ n) :
    get_next_node "n68" v c = "n34" := by
  have hnr : nodeRules "n68" =
      [ tv "dob_verified" "n41" "DOB correct - go to Mini Miranda",
        tv "dob_correct" "n41" "DOB matches - go to Mini Miranda",
        tv "dob_mismatch" "n32" "DOB wrong - notify mismatch",
        tv "dob_incorrect" "n32" "DOB incorrect - notify mismatch",
        dobAttemptsCeiling "n34" "Too many DOB attempts - transfer" ] := by rfl
  unfold get_next_node
  rw [(scanRules_none_iff v c GLOBAL_TRIGGERS).mpr hg, hnr]
  rw [scanRules_cons_false v c _ _ (by simp [tv, h1]),
      scanRules_cons_false v c _ _ (by simp [tv, h2]),
      scanRules_cons_false v c _ _ (by simp [tv, h3]),
      scanRules_cons_false v c _ _ (by simp [tv, h4])]
  have hceil : (dobAttemptsCeiling "n34" "Too many DOB attempts - transfer").cond v c
      = some true := by
    simp only [dobAttemptsCeiling, dgetD, h5, Option.getD_some, pyGe, toNum]
    simp [h6]
  have hscan : scanRules v c [dobAttemptsCeiling "n34" "Too many DOB attempts - transfer"]
      = some "n34" := by
    simp only [scanRules]
    rw [hceil]
    rfl
  rw [hscan]

/-- Witness for dob_ceiling_forces_transfer at a concrete input. -/
theorem dob_ceiling_forces_transfer_witness :
    get_next_node "n68" [] [("dob_attempts", PyVal.int 5)] = "n34" :=
  dob_ceiling_forces_transfer [] [("dob_attempts", PyVal.int 5)] 5
    (by decide) (by rfl) (by rfl) (by rfl) (by rfl) (by rfl) (by norm_num)

/-- get_next_node run over the rule lists with the raising rules deleted. -/
def get_next_node_skipless (current_node : String) (extracted_vars context : Dict) : String :=
  match scanRules extracted_vars context
      (GLOBAL_TRIGGERS.filter (fun r => (r.cond extracted_vars context).isSome)) with
  | some t => t
  | Option.none =>
    match scanRules extracted_vars context
        ((nodeRules current_node).filter (fun r => (r.cond extracted_vars context).isSome)) with
    | some t => t
    | Option.none => current_node

theorem scanRules_filter_raises (v c : Dict) (rs : List Rule) :
    scanRules v c (rs.filter (fun r => (r.cond v c).isSome)) = scanRules v c rs := by
  induction rs with
  | nil => rfl
  | cons r rs ih =>
    cases h : r.cond v c with
    | none => simp [scanRules, List.filter, h, ih]
    | some b =>
      cases b with
      | true => simp [scanRules, List.filter, h]
      | false => simp [scanRules, List.filter, h, ih]

/--
C10.  A transition-rule predicate that raises is skipped (its target is
never selected) and evaluation continues with the next rule in declared
order; the exception never propagates: get_next_node computes exactly what
it would compute if every raising rule were deleted from the rule lists.
-/
theorem predicate_exception_skips_rule (cur : String) (v c : Dict) :
    get_next_node cur v c = get_next_node_skipless cur v c := by
  unfold get_next_node get_next_node_skipless
  rw [scanRules_filter_raises, scanRules_filter_raises]

/-! ## Context store (app/utils/context_manager.py) -/

/-- Python test: value is None. -/
def pyIsNone : PyVal → Bool
  | PyVal.none => true
  | _ => false

/--
ContextManager.update_context: filter the None values out of the partial
update, then dict.update the stored context with the remaining bindings.
-/
def update_context (ctx updates : Dict) : Dict :=
  (updates.filter (fun kv => !pyIsNone kv.2)).foldl (fun acc kv => dset acc kv.1 kv.2) ctx

theorem dlookup_dset_self (d : Dict) (k : String) (v : PyVal) :
    dlookup (dset d k v) k = some v := by
  induction d with
  | nil => simp [dset, dlookup]
  | cons kv rest ih =>
    obtain ⟨k1, v1⟩ := kv
    by_cases h : k1 = k
    · simp [dset, dlookup, h]
    · simp [dset, dlookup, h, ih]

theorem dlookup_dset_other (d : Dict) (k k2 : String) (v : PyVal) (h : k ≠ k2) :
    dlookup (dset d k2 v) k = dlookup d k := by
  have h2 : ¬(k2 = k) := fun he => h he.symm
  induction d with
  | nil => simp [dset, dlookup, h2]
  | cons kv rest ih =>
    obtain ⟨k1, v1⟩ := kv
    by_cases h1 : k1 = k2
    · subst h1
      simp [dset, dlookup, h2]
    · simp only [dset, if_neg h1, dlookup]
      by_cases h3 : k1 = k
      · simp [h3]
      · simp [h3, ih]

theorem dlookup_foldl_not_mem (l : Dict) (k : String) :
    ∀ ctx : Dict, k ∉ l.map Prod.fst →
      dlookup (l.foldl (fun acc kv => dset acc kv.1 kv.2) ctx) k = dlookup ctx k := by
  induction l with
  | nil => intro ctx _; rfl
  | cons kv rest ih =>
    intro ctx h
    obtain ⟨k1, v1⟩ := kv
    simp only [List.map, List.mem_cons] at h
    push_neg at h
    simp only [List.foldl]
    rw [ih _ h.2]
    exact dlookup_dset_other ctx k k1 v1 h.1

theorem dlookup_foldl_mem (l : Dict) (k : String) (v : PyVal) :
    ∀ ctx : Dict, (k, v) ∈ l → (l.map Prod.fst).Nodup →
      dlookup (l.foldl (fun acc kv => dset acc kv.1 kv.2) ctx) k = some v := by
  induction l with
  | nil => intro ctx hmem _; cases hmem
  | cons kv rest ih =>
    intro ctx hmem hnd
    obtain ⟨k1, v1⟩ := kv
    simp only [List.map, List.nodup_cons] at hnd
    simp only [List.foldl]
    rcases List.mem_cons.mp hmem with heq | hrest
    · injection heq with hk hv
      subst hk
      subst hv
      rw [dlookup_foldl_not_mem rest k (dset ctx k v) (by simpa using hnd.1)]
      exact dlookup_dset_self ctx k v
    · exact ih _ hrest hnd.2

theorem dlookup_some_mem (d : Dict) (k : String) (v : PyVal) :
    dlookup d k = some v → (k, v) ∈ d := by
  induction d with
  | nil => intro h; cases h
  | cons kv rest ih =>
    intro h
    obtain ⟨k1, v1⟩ := kv
    simp only [dlookup] at h
    by_cases h1 : k1 = k
    · rw [if_pos h1] at h
      injection h with hv
      subst h1
      subst hv
      exact List.mem_cons_self _ _
    · rw [if_neg h1] at h
      exact List.mem_cons_of_mem _ (ih h)

theorem dlookup_mem_ne_none (d : Dict) (k : String) (v : PyVal) :
    (k, v) ∈ d → dlookup d k ≠ Option.none := by
  induction d with
  | nil => intro h; cases h
  | cons kv rest ih =>
    intro hmem
    obtain ⟨k1, v1⟩ := kv
    simp only [dlookup]
    by_cases h1 : k1 = k
    · rw [if_pos h1]
      simp
    · rw [if_neg h1]
      rcases List.mem_cons.mp hmem with heq | hrest
      · injection heq with hk _
        exact absurd hk.symm h1
      · exact ih hrest

theorem dlookup_none_filter (upd : Dict) (k : String) :
    (upd.map Prod.fst).Nodup → dlookup upd k = some PyVal.none →
      k ∉ (upd.filter (fun kv => !pyIsNone kv.2)).map Prod.fst := by
  induction upd with
  | nil => intro _ h; cases h
  | cons kv rest ih =>
    intro hnd h
    obtain ⟨k1, v1⟩ := kv
    simp only [List.map, List.nodup_cons] at hnd
    simp only [dlookup] at h
    by_cases h1 : k1 = k
    · rw [if_pos h1] at h
      injection h with hv
      subst h1
      subst hv
      rw [List.filter_cons]
      simp only [pyIsNone, Bool.not_true, Bool.false_eq_true, if_false]
      intro hmem
      obtain ⟨⟨k2, v2⟩, hm, he⟩ := List.mem_map.mp hmem
      exact hnd.1 (List.mem_map.mpr ⟨(k2, v2), List.mem_of_mem_filter hm, he⟩)
    · rw [if_neg h1] at h
      have hk := ih hnd.2 h
      rw [List.filter_cons]
      by_cases hv1 : (!pyIsNone v1) = true
      · rw [if_pos hv1]
        simp only [List.map, List.mem_cons]
        rintro (rfl | hmem)
        · exact h1 rfl
        · exact hk hmem
      · rw [if_neg hv1]
        exact hk

theorem dlookup_absent_filter (upd : Dict) (k : String)
    (h : dlookup upd k = Option.none) :
    k ∉ (upd.filter (fun kv => !pyIsNone kv.2)).map Prod.fst := by
  intro hmem
  obtain ⟨⟨k2, v2⟩, hm, he⟩ := List.mem_map.mp hmem
  have hk : k2 = k := he
  subst hk
  exact dlookup_mem_ne_none upd k2 v2 (List.mem_of_mem_filter hm) h

/--
C5 counterexample.  update_context filters only None out of the partial: a
present-but-empty string value is not treated as absent and does overwrite,
so a stored field can be cleared back to the empty string through update.
-/
theorem update_empty_overwrites :
    dlookup (update_context [("party_name", sv "John Smith")] [("party_name", sv "")])
        "party_name" = some (sv "") ∧ sv "" ≠ sv "John Smith" :=
  ⟨by rfl, by simp [sv]⟩

/--
C5 amended.  For a partial update with distinct keys: a key that is absent
from the partial, or present with value None, never changes the stored value
(so a field can never be cleared back to None); a key present with any
non-None value - including the empty string - always overwrites the stored
field with that value.
-/
theorem update_context_merge (ctx updates : Dict) (k : String)
    (hnd : (updates.map Prod.fst).Nodup) :
    ((dlookup updates k = some PyVal.none ∨ dlookup updates k = Option.none) →
       dlookup (update_context ctx updates) k = dlookup ctx k) ∧
    (∀ v, dlookup updates k = some v → pyIsNone v = false →
       dlookup (update_context ctx updates) k = some v) := by
  constructor
  · intro habs
    unfold update_context
    rcases habs with hnone | habs
    · exact dlookup_foldl_not_mem _ k ctx (dlookup_none_filter updates k hnd hnone)
    · exact dlookup_foldl_not_mem _ k ctx (dlookup_absent_filter updates k habs)
  · intro v hv hvn
    unfold update_context
    have hmem : (k, v) ∈ updates.filter (fun kv => !pyIsNone kv.2) :=
      List.mem_filter.mpr ⟨dlookup_some_mem updates k v hv, by simp [hvn]⟩
    have hnd2 : ((updates.filter (fun kv => !pyIsNone kv.2)).map Prod.fst).Nodup :=
      hnd.sublist ((List.filter_sublist updates).map Prod.fst)
    exact dlookup_foldl_mem _ k v ctx hmem hnd2

/-- Witness for update_context_merge at concrete inputs. -/
theorem update_context_merge_witness :
    dlookup (update_context [("a", sv "x"), ("b", sv "y")]
        [("a", PyVal.none), ("b", sv "z")]) "a" = some (sv "x") ∧
    dlookup (update_context [("a", sv "x"), ("b", sv "y")]
        [("a", PyVal.none), ("b", sv "z")]) "b" = some (sv "z") := by
  constructor
  · have h := (update_context_merge [("a", sv "x"), ("b", sv "y")]
        [("a", PyVal.none), ("b", sv "z")] "a" (by decide)).1 (Or.inl (by rfl))
    rw [h]
    rfl
  · exact (update_context_merge [("a", sv "x"), ("b", sv "y")]
        [("a", PyVal.none), ("b", sv "z")] "b" (by decide)).2 (sv "z") (by rfl) (by rfl)

/-! ## Template renderer (app/utils/template_render.py)

Strings are processed as List Char.  The regular expressions of the source
are implemented as explicit left-to-right scanners with the same matching
semantics; fueled recursion (fuel = input length, consumed at least as fast
as the input) keeps every definition kernel-computable.
-/

/-- Python regex whitespace class (ASCII). -/
def isWS (c : Char) : Bool :=
  c = ' ' || c = '\t' || c = '\n' || c = '\r' || c = '\x0b' || c = '\x0c'

/-- Python regex word class (the templates are ASCII). -/
def isWord (c : Char) : Bool := c.isAlphanum || c = '_'

/--
Match the tag pattern (brace percent, ws, word+, ws, percent brace) at the
head of the input; return the tag name and the rest after the match.
-/
def tryOpen (s : List Char) : Option (List Char × List Char) :=
  match s with
  | a :: b :: t =>
    if a = '{' && b = '%' then
      let t1 := t.dropWhile isWS
      let name := t1.takeWhile isWord
      if name.isEmpty then Option.none
      else
        match (t1.dropWhile isWord).dropWhile isWS with
        | c :: d :: r => if c = '%' && d = '}' then some (name, r) else Option.none
        | _ => Option.none
    else Option.none
  | _ => Option.none

/-- re.findall of the tag pattern: scan left to right, non-overlapping. -/
def scanTagsF : Nat → List Char → List (List Char)
  | 0, _ => []
  | _ + 1, [] => []
  | f + 1, c :: cs =>
    match tryOpen (c :: cs) with
    | some (name, r) => name :: scanTagsF f r
    | Option.none => scanTagsF f cs

def scanTags (s : List Char) : List (List Char) := scanTagsF s.length s

/-- Whether an opening brace-percent pair occurs anywhere in the input. -/
def hasOpen : List Char → Bool
  | [] => false
  | [_] => false
  | a :: b :: rest => (a = '{' && b = '%') || hasOpen (b :: rest)

/--
Match the literal-name tag pattern (brace percent, ws, the given name, ws,
percent brace) at the head of the input; return the rest after the match.
This is the compiled form of the keep_block and remove_block patterns,
where the tag name is inserted literally (re.escape).
-/
def tryLit (name : List Char) (s : List Char) : Option (List Char) :=
  match s with
  | a :: b :: t =>
    if a = '{' && b = '%' then
      let t1 := t.dropWhile isWS
      if name.isPrefixOf t1 then
        match (t1.drop name.length).dropWhile isWS with
        | c :: d :: r => if c = '%' && d = '}' then some r else Option.none
        | _ => Option.none
      else Option.none
    else Option.none
  | _ => Option.none

/--
Find the earliest close-tag match (the non-greedy dot-star of the block
patterns): returns the content before the close tag and the rest after it.
-/
def findCloseF (close : List Char) : Nat → List Char → Option (List Char × List Char)
  | 0, _ => Option.none
  | _ + 1, [] => Option.none
  | f + 1, c :: cs =>
    match tryLit close (c :: cs) with
    | some r => some ([], r)
    | Option.none =>
      match findCloseF close f cs with
      | some (inner, rest) => some (c :: inner, rest)
      | Option.none => Option.none

/--
re.sub of the block pattern (open tag, non-greedy content, close tag),
replacing each match by its content (keep) or by nothing (remove); a
position where the open tag matches but no close tag follows is not a
match, and scanning resumes one character further (regex semantics).
-/
def subBlockF (keep : Bool) (name close : List Char) : Nat → List Char → List Char
  | 0, s => s
  | _ + 1, [] => []
  | f + 1, c :: cs =>
    match tryLit name (c :: cs) with
    | some afterOpen =>
      match findCloseF close afterOpen.length afterOpen with
      | some (inner, rest) =>
        (if keep then inner else []) ++ subBlockF keep name close f rest
      | Option.none => c :: subBlockF keep name close f cs
    | Option.none => c :: subBlockF keep name close f cs

/-- keep_block: strip the tag pair, keep the inner content. -/
def keep_block (template : List Char) (tag : List Char) : List Char :=
  subBlockF true tag ('e' :: 'n' :: 'd' :: tag) template.length template

/-- remove_block: delete the tag pair and everything between. -/
def remove_block (template : List Char) (tag : List Char) : List Char :=
  subBlockF false tag ('e' :: 'n' :: 'd' :: tag) template.length template

/-- Match the variable pattern (double brace, ws, word+, ws, double close brace). -/
def tryVar (s : List Char) : Option (List Char × List Char) :=
  match s with
  | a :: b :: t =>
    if a = '{' && b = '{' then
      let t1 := t.dropWhile isWS
      let name := t1.takeWhile isWord
      if name.isEmpty then Option.none
      else
        match (t1.dropWhile isWord).dropWhile isWS with
        | c :: d :: r => if c = '}' && d = '}' then some (name, r) else Option.none
        | _ => Option.none
    else Option.none
  | _ => Option.none

/-- Whether a double opening brace occurs anywhere in the input. -/
def hasVar : List Char → Bool
  | [] => false
  | [_] => false
  | a :: b :: rest => (a = '{' && b = '{') || hasVar (b :: rest)

/--
str(value) for substitution.  The dict repr placeholder is never evaluated
by any claim: substitution is only exercised on marker-free text or on
scalar context values.
-/
def pyStr : PyVal → List Char
  | PyVal.str s => s.toList
  | PyVal.bool true => "True".toList
  | PyVal.bool false => "False".toList
  | PyVal.int n => (toString n).toList
  | PyVal.none => "None".toList
  | PyVal.obj _ => "<dict repr>".toList

/--
substitute_variables: replace each variable placeholder by str(value), or by
the empty string when the context value is absent or None.
-/
def substVarsF (ctx : Dict) : Nat → List Char → List Char
  | 0, s => s
  | _ + 1, [] => []
  | f + 1, c :: cs =>
    match tryVar (c :: cs) with
    | some (name, r) =>
      (match dlookup ctx (String.mk name) with
       | Option.none => []
       | some PyVal.none => []
       | some v => pyStr v) ++ substVarsF ctx f r
    | Option.none => c :: substVarsF ctx f cs

def substitute_variables (template : List Char) (ctx : Dict) : List Char :=
  substVarsF ctx template.length template

/--
The newline-collapsing regex sub (three or more newlines become two):
truncate every run of consecutive newlines to at most two by dropping each
newline already preceded by two newlines.  n counts the newlines
immediately preceding the cursor.
-/
def collapseNLAux : Nat → List Char → List Char
  | _, [] => []
  | n, c :: cs =>
    if c = '\n' then
      if 2 ≤ n then collapseNLAux n cs else c :: collapseNLAux (n + 1) cs
    else c :: collapseNLAux 0 cs

/-- text.split(sep) for a single character separator. -/
def splitOnChar (sep : Char) : List Char → List (List Char)
  | [] => [[]]
  | c :: cs =>
    let r := splitOnChar sep cs
    if c = sep then [] :: r
    else
      match r with
      | l :: ls => (c :: l) :: ls
      | [] => [[c]]

/-- line consists only of whitespace, that is line.strip() == empty. -/
def isBlankLine (l : List Char) : Bool := l.all isWS

/--
line.strip() if line.strip() == empty else line: a whitespace-only line is
replaced by its strip (the empty line); any other line is kept verbatim.
-/
def stripIfBlank (l : List Char) : List Char := if isBlankLine l then [] else l

/-- The trailing while-pop loop of clean_whitespace. -/
def dropTrailBlank : List (List Char) → List (List Char)
  | [] => []
  | l :: ls =>
    let r := dropTrailBlank ls
    if r.isEmpty then (if isBlankLine l then [] else [l]) else l :: r

/-- Rejoin lines with newlines. -/
def joinNL : List (List Char) → List Char
  | [] => []
  | [l] => l
  | l :: ls => l ++ '\n' :: joinNL ls

/--
clean_whitespace: collapse runs of three or more newlines to two, strip
whitespace-only lines to empty, then drop leading and trailing blank lines.
-/
def clean_whitespace (text : List Char) : List Char :=
  joinNL (dropTrailBlank (List.dropWhile isBlankLine
    ((splitOnChar '\n' (collapseNLAux 0 text)).map stripIfBlank)))

example : clean_whitespace "a\n \n\nb".toList = "a\n\n\nb".toList := by rfl
example : clean_whitespace "a\n\n\nb".toList = "a\n\nb".toList := by rfl
example : clean_whitespace "a\n \n \n \nb".toList = "a\n\n\n\nb".toList := by rfl
example : clean_whitespace "  \nx y \n ".toList = "x y ".toList := by rfl

/-- Python x > m for an int literal m; raises unless x is numeric. -/
def pyGt (x : PyVal) (m : Int) : Option Bool :=
  match toNum x with
  | some n => some (decide (m < n))
  | Option.none => Option.none

/-- Accumulate a decimal digit string. -/
def digitsToNat (l : List Char) : Nat :=
  l.foldl (fun acc c => acc * 10 + (c.toNat - '0'.toNat)) 0

/-- str.strip() (ASCII whitespace). -/
def pyStrip (l : List Char) : List Char :=
  ((l.dropWhile isWS).reverse.dropWhile isWS).reverse

/-- str.lower() (ASCII). -/
def strLower (s : String) : String := String.mk (s.toList.map Char.toLower)

/--
int(s) for a string: optional surrounding whitespace, optional sign, at
least one digit.  Digit-group underscores are not modelled; no template
context uses them.
-/
def pyIntOfStr (s : String) : Option Int :=
  let l := pyStrip s.toList
  let signAndDigits : Bool × List Char :=
    match l with
    | '-' :: rest => (true, rest)
    | '+' :: rest => (false, rest)
    | rest => (false, rest)
  let ds := signAndDigits.2
  if !ds.isEmpty && ds.all Char.isDigit then
    some (if signAndDigits.1 then -(digitsToNat ds : Int) else (digitsToNat ds : Int))
  else Option.none

/-- int(x): numeric passthrough or string parse; raises otherwise. -/
def pyToInt : PyVal → Option Int
  | PyVal.bool b => some (if b then 1 else 0)
  | PyVal.int n => some n
  | PyVal.str s => pyIntOfStr s
  | _ => Option.none

/--
float(s) for a string, as an exact rational: optional whitespace and sign,
digits with an optional fractional part.  Exponent, inf and nan forms are
not modelled; no template context uses them.
-/
def pyFloatOfStr (s : String) : Option Rat :=
  let l := pyStrip s.toList
  let signAndBody : Bool × List Char :=
    match l with
    | '-' :: rest => (true, rest)
    | '+' :: rest => (false, rest)
    | rest => (false, rest)
  let body := signAndBody.2
  let ip := body.takeWhile Char.isDigit
  let rest := body.dropWhile Char.isDigit
  let mag : Option Rat :=
    match rest with
    | [] => if ip.isEmpty then Option.none else some ((digitsToNat ip : Rat))
    | '.' :: fp =>
      if fp.all Char.isDigit && (!ip.isEmpty || !fp.isEmpty) then
        some ((digitsToNat ip : Rat) + (digitsToNat fp : Rat) / ((10 : Rat) ^ fp.length))
      else Option.none
    | _ => Option.none
  mag.map (fun q => if signAndBody.1 then -q else q)

/-- float(x): numeric passthrough or string parse; raises otherwise. -/
def pyToFloat : PyVal → Option Rat
  | PyVal.bool b => some (if b then 1 else 0)
  | PyVal.int n => some ((n : Rat))
  | PyVal.str s => pyFloatOfStr s
  | _ => Option.none

/-- Category strings that _is_payment_today treats as today. -/
def todayCategories : List String :=
  ["today", "tonight", "end of day", "by the end of the day"]

/--
_is_payment_today(ctx).  nowDate stands for datetime.now(timezone.utc)
formatted as a date, the only impure input of the renderer; every renderer
definition is parameterized by it.  Raises (none) when the payment date is
a truthy non-string (attribute lookup of lower fails).
-/
def is_payment_today (nowDate : String) (ctx : Dict) : Option Bool :=
  let pd := if truthy (dget ctx "upd_extracted_payment_date")
            then dget ctx "upd_extracted_payment_date"
            else dget ctx "user_provided_payment_date"
  if !truthy pd then some false
  else
    match pd with
    | PyVal.str s =>
      if todayCategories.contains (strLower s) then some true
      else
        let cd := dget ctx "current_date"
        let todayv := if truthy cd then cd else sv nowDate
        some (pyEq (PyVal.str s) todayv)
    | _ => Option.none

/--
CONDITIONAL_MAPPINGS: registered tag name to predicate over the context.
The Python mapping returns an arbitrary value used for its truthiness by
process_conditionals; the model folds that truthiness in and returns
Option Bool, none standing for a raised exception (int() or float() on an
unparsable string, lower() on a non-string).
-/
def CONDITIONAL_MAPPINGS (nowDate : String) : List (List Char × (Dict → Option Bool)) :=
  [ ("en".toList, fun ctx => some (pyEq (dgetD ctx "language" (sv "en")) (sv "en"))),
    ("es".toList, fun ctx => some (pyEq (dgetD ctx "language" (sv "en")) (sv "es"))),
    ("english_examples".toList, fun ctx => some (pyEq (dgetD ctx "language" (sv "en")) (sv "en"))),
    ("spanish_examples".toList, fun ctx => some (pyEq (dgetD ctx "language" (sv "en")) (sv "es"))),
    ("essex_loan_acct_available".toList, fun ctx => some (truthy (dget ctx "AccountNumberLastFour"))),
    ("essex_loan_acct_unavailable".toList, fun ctx => some (!truthy (dget ctx "AccountNumberLastFour"))),
    ("upd_current_dated_payment".toList, fun ctx => is_payment_today nowDate ctx),
    ("upd_future_dated_payment".toList, fun ctx => (is_payment_today nowDate ctx).map (fun b => !b)),
    ("RestrictAutoPayDraft".toList, fun ctx => some (pyEq (dget ctx "RestrictAutoPayDraft") (sv "Y"))),
    ("NoRestrictAutoPayDraft".toList, fun ctx => some (!pyEq (dget ctx "RestrictAutoPayDraft") (sv "Y"))),
    ("days_late_leq_15".toList, fun ctx => (pyToInt (dgetD ctx "DaysLate" (PyVal.int 0))).map (fun n => decide (n ≤ 15))),
    ("days_late_gt_15".toList, fun ctx => (pyToInt (dgetD ctx "DaysLate" (PyVal.int 0))).map (fun n => decide (15 < n))),
    ("days_late_gt_30".toList, fun ctx => (pyToInt (dgetD ctx "DaysLate" (PyVal.int 0))).map (fun n => decide (30 < n))),
    ("days_late_gt_45".toList, fun ctx => (pyToInt (dgetD ctx "DaysLate" (PyVal.int 0))).map (fun n => decide (45 < n))),
    ("days_late_leq_45".toList, fun ctx => (pyToInt (dgetD ctx "DaysLate" (PyVal.int 0))).map (fun n => decide (n ≤ 45))),
    ("is_birthday".toList, fun ctx => some (truthy (dgetD ctx "is_birthday" (PyVal.bool false)))),
    ("is_anniversary".toList, fun ctx => some (truthy (dgetD ctx "is_anniversary" (PyVal.bool false)))),
    ("is_veteran".toList, fun ctx => some (truthy (dgetD ctx "is_veteran" (PyVal.bool false)))),
    ("not_birthday".toList, fun ctx => some (!truthy (dgetD ctx "is_birthday" (PyVal.bool false)))),
    ("not_anniversary".toList, fun ctx => some (!truthy (dgetD ctx "is_anniversary" (PyVal.bool false)))),
    ("firstprompt".toList, fun ctx => some (pyEq (dgetD ctx "prompt_count" (PyVal.int 0)) (PyVal.int 0))),
    ("reprompt".toList, fun ctx => pyGt (dgetD ctx "prompt_count" (PyVal.int 0)) 0),
    ("user_appt_conflict".toList, fun ctx => some (truthy (dgetD ctx "appt_conflict" (PyVal.bool false)))),
    ("no_appt_conflict".toList, fun ctx => some (!truthy (dgetD ctx "appt_conflict" (PyVal.bool false)))),
    ("name_match".toList, fun ctx => some (truthy (dgetD ctx "name_match" (PyVal.bool false)))),
    ("name_no_match".toList, fun ctx => some (!truthy (dgetD ctx "name_match" (PyVal.bool false)))),
    ("has_existing_account".toList, fun ctx => some (truthy (dget ctx "AccountNumberLastFour"))),
    ("no_existing_account".toList, fun ctx => some (!truthy (dget ctx "AccountNumberLastFour"))),
    ("using_new_account".toList, fun ctx => some (truthy (dgetD ctx "new_bank_account_confirmed" (PyVal.bool false)))),
    ("using_existing_account".toList, fun ctx => some (truthy (dgetD ctx "existing_bank_account_confirmed" (PyVal.bool false)))),
    ("payment_method_checking".toList, fun ctx => some (pyEq (dget ctx "new_account_payment_method") (sv "checking"))),
    ("payment_method_savings".toList, fun ctx => some (pyEq (dget ctx "new_account_payment_method") (sv "savings"))),
    ("disaster_affected".toList, fun ctx => some (truthy (dgetD ctx "affected_by_disaster" (PyVal.bool false)))),
    ("not_disaster_affected".toList, fun ctx => some (!truthy (dgetD ctx "affected_by_disaster" (PyVal.bool false)))),
    ("transfer_reason_provided".toList, fun ctx => some (truthy (dget ctx "transfer_reason"))),
    ("dob_attempt_1".toList, fun ctx => some (pyEq (dgetD ctx "dob_attempts" (PyVal.int 0)) (PyVal.int 1))),
    ("dob_attempt_2".toList, fun ctx => pyGe (dgetD ctx "dob_attempts" (PyVal.int 0)) 2),
    ("has_fees".toList, fun ctx =>
      let x := dgetD ctx "FeesBalance" (PyVal.int 0)
      (pyToFloat (if truthy x then x else PyVal.int 0)).map (fun q => decide (0 < q))),
    ("no_fees".toList, fun ctx =>
      let x := dgetD ctx "FeesBalance" (PyVal.int 0)
      (pyToFloat (if truthy x then x else PyVal.int 0)).map (fun q => decide (q ≤ 0))) ]

/-- Tag name lookup in the registered mapping. -/
def tagLookup : List (List Char × (Dict → Option Bool)) → List Char → Option (Dict → Option Bool)
  | [], _ => Option.none
  | (k, p) :: rest, tag => if k = tag then some p else tagLookup rest tag

/-- tag_name.startswith(end). -/
def startsWithEnd : List Char → Bool
  | a :: b :: c :: _ => a = 'e' && b = 'n' && c = 'd'
  | _ => false

/-- Deduplicate the scanned tag list, keeping first occurrences. -/
def dedupAux (seen : List (List Char)) : List (List Char) → List (List Char)
  | [] => []
  | x :: xs => if x ∈ seen then dedupAux seen xs else x :: dedupAux (x :: seen) xs

/--
The distinct tag names of the template.  Python iterates over a set here,
in unspecified order; the model fixes first-scan order.  No claim under
verification is sensitive to this order (the verified templates contain at
most one non-end tag).
-/
def dedupTags (l : List (List Char)) : List (List Char) := dedupAux [] l

/--
One iteration of the process_conditionals loop: skip end tags, evaluate the
registered predicate (propagating a raise), keep or remove the block;
an unregistered tag is fail-open (kept, markers stripped).
-/
def pcStep (nowDate : String) (ctx : Dict) (acc : Option (List Char)) (tag : List Char) :
    Option (List Char) :=
  match acc with
  | Option.none => Option.none
  | some result =>
    if startsWithEnd tag then some result
    else
      match tagLookup (CONDITIONAL_MAPPINGS nowDate) tag with
      | some pred =>
        match pred ctx with
        | some b => some (if b then keep_block result tag else remove_block result tag)
        | Option.none => Option.none
      | Option.none => some (keep_block result tag)

/-- process_conditionals: resolve every distinct tag found in the template. -/
def process_conditionals (nowDate : String) (template : List Char) (ctx : Dict) :
    Option (List Char) :=
  (dedupTags (scanTags template)).foldl (pcStep nowDate ctx) (some template)

/--
render_template: conditional resolution, then variable substitution, then
whitespace cleanup; empty template short-circuits to the empty string.
none stands for a raised exception inside a conditional predicate.
-/
def render_template (nowDate : String) (template : List Char) (ctx : Dict) :
    Option (List Char) :=
  if template.isEmpty then some []
  else
    (process_conditionals nowDate template ctx).map
      (fun r => clean_whitespace (substitute_variables r ctx))

/-- The C9 template shape: open tag, A, close tag, B. -/
def mkTemplateC9 (tag : List Char) : List Char :=
  '{' :: '%' :: tag ++ '%' :: '}' :: 'A' :: '{' :: '%' :: 'e' :: 'n' :: 'd' :: tag ++
    '%' :: '}' :: 'B' :: []

example : mkTemplateC9 "en".toList = "{%en%}A{%enden%}B".toList := by rfl
example : render_template "2024-01-01" (mkTemplateC9 "en".toList) [] = some "AB".toList := by rfl
example : render_template "2024-01-01" (mkTemplateC9 "es".toList) [] = some "B".toList := by rfl
example : render_template "2024-01-01" "hi {{FirstName}}".toList
    [("FirstName", sv "Ana")] = some "hi Ana".toList := by rfl
example : render_template "2024-01-01" "{{x}}".toList [("x", sv "{%en%}Q{%enden%}")]
    = some "{%en%}Q{%enden%}".toList := by rfl

/-! ## C4: rendering is not idempotent -/

/--
C4 counterexample.  The whitespace-normalization stage is itself not a
fixed point operation: a whitespace-bearing blank line next to an empty
line is stripped to empty, creating a new three-newline run that a second
render then collapses.  Hence render(render(t, ctx), ctx) differs from
render(t, ctx) at this template.
-/
theorem render_not_idempotent :
    render_template "2024-01-01" "a\n \n\nb".toList [] = some "a\n\n\nb".toList ∧
    render_template "2024-01-01" "a\n\n\nb".toList [] = some "a\n\nb".toList ∧
    "a\n\n\nb".toList ≠ "a\n\nb".toList :=
  ⟨by rfl, by rfl, by decide⟩

theorem hasOpen_tail (a : Char) (s : List Char) (h : hasOpen (a :: s) = false) :
    hasOpen s = false := by
  match s with
  | [] => rfl
  | b :: t =>
    simp only [hasOpen, Bool.or_eq_false_iff] at h
    exact h.2

theorem tryOpen_none (s : List Char) (h : hasOpen s = false) : tryOpen s = Option.none := by
  match s with
  | [] => rfl
  | [a] => rfl
  | a :: b :: t =>
    simp only [hasOpen, Bool.or_eq_false_iff] at h
    simp [tryOpen, h.1]

theorem scanTagsF_nil (f : Nat) (s : List Char) (h : hasOpen s = false) :
    scanTagsF f s = [] := by
  induction f generalizing s with
  | zero => rfl
  | succ f ih =>
    match s with
    | [] => rfl
    | c :: cs =>
      simp only [scanTagsF]
      rw [tryOpen_none _ h]
      exact ih cs (hasOpen_tail c cs h)

theorem scanTags_nil (s : List Char) (h : hasOpen s = false) : scanTags s = [] :=
  scanTagsF_nil s.length s h

theorem hasVar_tail (a : Char) (s : List Char) (h : hasVar (a :: s) = false) :
    hasVar s = false := by
  match s with
  | [] => rfl
  | b :: t =>
    simp only [hasVar, Bool.or_eq_false_iff] at h
    exact h.2

theorem tryVar_none (s : List Char) (h : hasVar s = false) : tryVar s = Option.none := by
  match s with
  | [] => rfl
  | [a] => rfl
  | a :: b :: t =>
    simp only [hasVar, Bool.or_eq_false_iff] at h
    simp [tryVar, h.1]

theorem substVarsF_id (ctx : Dict) (f : Nat) (s : List Char) (h : hasVar s = false) :
    substVarsF ctx f s = s := by
  induction f generalizing s with
  | zero => rfl
  | succ f ih =>
    match s with
    | [] => rfl
    | c :: cs =>
      simp only [substVarsF]
      rw [tryVar_none _ h]
      rw [ih cs (hasVar_tail c cs h)]

theorem substitute_variables_id (s : List Char) (ctx : Dict) (h : hasVar s = false) :
    substitute_variables s ctx = s :=
  substVarsF_id ctx s.length s h

/--
C4 amended.  Re-rendering the renderer output is a no-op exactly on outputs
that contain no remaining conditional marker opener, no variable
placeholder opener, and that are already a fixed point of the whitespace
normalization.  Variable substitution can inject new markers and the
normalization itself is not idempotent, so this does not hold for every
template and context (see the counterexample).
-/
theorem render_idempotent_on_stable_output (nowDate : String) (t : List Char) (ctx : Dict)
    (out : List Char) (_hout : render_template nowDate t ctx = some out)
    (h1 : hasOpen out = false) (h2 : hasVar out = false)
    (h3 : clean_whitespace out = out) :
    render_template nowDate out ctx = some out := by
  match hcase : out with
  | [] => rfl
  | c :: cs =>
    unfold render_template
    rw [if_neg (by simp)]
    unfold process_conditionals
    rw [scanTags_nil _ h1]
    simp only [dedupTags, dedupAux, List.foldl, Option.map]
    rw [substitute_variables_id _ ctx h2, h3]

/-- Witness for render_idempotent_on_stable_output at a concrete input. -/
theorem render_idempotent_witness :
    render_template "2024-01-01" "hello world".toList [] = some "hello world".toList :=
  render_idempotent_on_stable_output "2024-01-01" "hello world".toList []
    "hello world".toList (by rfl) (by rfl) (by rfl) (by rfl)

/-! ## C8: what clean_whitespace actually guarantees -/

/--
C8 counterexample.  A run of three blank-but-whitespace-bearing lines
contains no three consecutive newline characters, so the collapse regex
does not fire; the lines are merely stripped to empty, leaving three blank
lines where the claim promises exactly one.
-/
theorem blank_run_not_collapsed :
    clean_whitespace "a\n \n \n \nb".toList = "a\n\n\n\nb".toList ∧
    clean_whitespace "a\n \n \n \nb".toList ≠ "a\n\nb".toList :=
  ⟨by rfl, by decide⟩

theorem splitOnChar_ne_nil (sep : Char) (w : List Char) : splitOnChar sep w ≠ [] := by
  match w with
  | [] => simp [splitOnChar]
  | c :: cs =>
    simp only [splitOnChar]
    by_cases h : c = sep
    · simp [h]
    · simp only [if_neg h]
      match hsp : splitOnChar sep cs with
      | [] => simp
      | l :: ls => simp

theorem splitOnChar_head (sep : Char) (w : List Char) :
    (splitOnChar sep w).head? = some (w.takeWhile (fun c => !(c = sep))) := by
  induction w with
  | nil => rfl
  | cons c cs ih =>
    simp only [splitOnChar]
    by_cases h : c = sep
    · subst h
      simp [List.takeWhile_cons]
    · simp only [if_neg h]
      match hsp : splitOnChar sep cs with
      | [] => exact absurd hsp (splitOnChar_ne_nil sep cs)
      | l :: ls =>
        rw [hsp] at ih
        simp only [List.head?, Option.some.injEq] at ih
        simp [List.takeWhile_cons, h, ih]

theorem splitOnChar_cons_ne (sep c : Char) (w : List Char) (hc : ¬ c = sep)
    (h : List Char) (t : List (List Char)) (hsp : splitOnChar sep w = h :: t) :
    splitOnChar sep (c :: w) = (c :: h) :: t := by
  simp only [splitOnChar, if_neg hc, hsp]

theorem collapse_takeWhile (u : List Char) : ∀ n : Nat, n ≤ 1 →
    (collapseNLAux n u).takeWhile (fun c => !(c = '\n'))
      = u.takeWhile (fun c => !(c = '\n')) := by
  induction u with
  | nil => intro n _; rfl
  | cons c cs ih =>
    intro n hn
    by_cases hc : c = '\n'
    · subst hc
      have h2 : ¬ 2 ≤ n := by omega
      simp [collapseNLAux, h2, List.takeWhile_cons]
    · simp only [collapseNLAux, if_neg hc]
      simp [List.takeWhile_cons, hc, ih 0 (by omega)]

theorem collapse_filter_aux (N : Nat) :
    ∀ u : List Char, u.length ≤ N → ∀ n : Nat,
      (splitOnChar '\n' (collapseNLAux n u)).filter (fun l => !l.isEmpty)
        = (splitOnChar '\n' u).filter (fun l => !l.isEmpty) := by
  induction N with
  | zero =>
    intro u hu n
    have : u = [] := List.length_eq_zero.mp (Nat.le_zero.mp hu)
    subst this
    rfl
  | succ N ih =>
    intro u hu n
    match u with
    | [] => rfl
    | c :: cs =>
      have hcs : cs.length ≤ N := by
        simpa [Nat.succ_le_succ_iff] using hu
      by_cases hc : c = '\n'
      · subst hc
        by_cases hn : 2 ≤ n
        · rw [show collapseNLAux n ('\n' :: cs) = collapseNLAux n cs from by
            simp [collapseNLAux, hn]]
          rw [ih cs hcs n]
          rw [show splitOnChar '\n' ('\n' :: cs) = [] :: splitOnChar '\n' cs from by
            simp [splitOnChar]]
          simp [List.filter_cons]
        · rw [show collapseNLAux n ('\n' :: cs) = '\n' :: collapseNLAux (n + 1) cs from by
            simp [collapseNLAux, hn]]
          rw [show splitOnChar '\n' ('\n' :: collapseNLAux (n + 1) cs)
              = [] :: splitOnChar '\n' (collapseNLAux (n + 1) cs) from by simp [splitOnChar]]
          rw [show splitOnChar '\n' ('\n' :: cs) = [] :: splitOnChar '\n' cs from by
            simp [splitOnChar]]
          simp only [List.filter_cons, List.isEmpty_nil, Bool.not_true, Bool.false_eq_true,
            if_false]
          exact ih cs hcs (n + 1)
      · obtain ⟨h1, t1, hsp1⟩ : ∃ h t, splitOnChar '\n' (collapseNLAux 0 cs) = h :: t := by
          match hsp : splitOnChar '\n' (collapseNLAux 0 cs) with
          | [] => exact absurd hsp (splitOnChar_ne_nil _ _)
          | h :: t => exact ⟨h, t, rfl⟩
        obtain ⟨h2, t2, hsp2⟩ : ∃ h t, splitOnChar '\n' cs = h :: t := by
          match hsp : splitOnChar '\n' cs with
          | [] => exact absurd hsp (splitOnChar_ne_nil _ _)
          | h :: t => exact ⟨h, t, rfl⟩
        have hh : h1 = h2 := by
          have e1 := splitOnChar_head '\n' (collapseNLAux 0 cs)
          have e2 := splitOnChar_head '\n' cs
          rw [hsp1] at e1
          rw [hsp2] at e2
          simp only [List.head?, Option.some.injEq] at e1 e2
          rw [e1, e2, collapse_takeWhile cs 0 (by omega)]
        have hstep : collapseNLAux n (c :: cs) = c :: collapseNLAux 0 cs := by
          simp [collapseNLAux, hc]
        rw [hstep, splitOnChar_cons_ne '\n' c _ hc h1 t1 hsp1,
          splitOnChar_cons_ne '\n' c _ hc h2 t2 hsp2]
        have hih := ih cs hcs 0
        rw [hsp1, hsp2] at hih
        subst hh
        by_cases hb : h1.isEmpty
        · have hb1 : h1 = [] := by
            cases h1 with
            | nil => rfl
            | cons a b => simp [List.isEmpty] at hb
          subst hb1
          simp only [List.filter_cons, List.isEmpty_nil, Bool.not_true, Bool.false_eq_true,
            if_false] at hih
          simp only [List.filter_cons, List.isEmpty_cons, Bool.not_false, if_true]
          rw [hih]
        · simp only [List.filter_cons, hb, Bool.not_false, if_true] at hih
          have htails : List.filter (fun l => !l.isEmpty) t1
              = List.filter (fun l => !l.isEmpty) t2 :=
            (List.cons.injEq .. ▸ hih).2
          simp only [List.filter_cons, List.isEmpty_cons, Bool.not_false, if_true]
          rw [htails]

theorem filter_nb_filter_ne (L : List (List Char)) :
    (L.filter (fun l => !l.isEmpty)).filter (fun l => !isBlankLine l)
      = L.filter (fun l => !isBlankLine l) := by
  induction L with
  | nil => rfl
  | cons l ls ih =>
    rw [List.filter_cons]
    by_cases he : l.isEmpty
    · have hl : l = [] := by
        cases l with
        | nil => rfl
        | cons a b => simp [List.isEmpty] at he
      subst hl
      simp only [he, Bool.not_true, Bool.false_eq_true, if_false, ih]
      rw [List.filter_cons]
      simp [isBlankLine]
    · simp only [he, Bool.not_false, if_true]
      rw [List.filter_cons, List.filter_cons]
      by_cases hbl : isBlankLine l
      · simp [hbl, ih]
      · simp [hbl, ih]

theorem collapse_filter_nb (t : List Char) :
    (splitOnChar '\n' (collapseNLAux 0 t)).filter (fun l => !isBlankLine l)
      = (splitOnChar '\n' t).filter (fun l => !isBlankLine l) := by
  rw [← filter_nb_filter_ne (splitOnChar '\n' (collapseNLAux 0 t)),
    ← filter_nb_filter_ne (splitOnChar '\n' t),
    collapse_filter_aux t.length t (Nat.le_refl _) 0]

theorem filter_nb_map_strip (L : List (List Char)) :
    (L.map stripIfBlank).filter (fun l => !isBlankLine l)
      = L.filter (fun l => !isBlankLine l) := by
  induction L with
  | nil => rfl
  | cons l ls ih =>
    simp only [List.map, List.filter_cons]
    by_cases hb : isBlankLine l
    · have hs : stripIfBlank l = [] := by simp [stripIfBlank, hb]
      rw [hs]
      have hbe : isBlankLine ([] : List Char) = true := rfl
      simp [hb, hbe, ih]
    · have hs : stripIfBlank l = l := by simp [stripIfBlank, hb]
      rw [hs]
      simp [hb, ih]

theorem filter_nb_dropWhile (L : List (List Char)) :
    (L.dropWhile isBlankLine).filter (fun l => !isBlankLine l)
      = L.filter (fun l => !isBlankLine l) := by
  induction L with
  | nil => rfl
  | cons l ls ih =>
    rw [List.dropWhile_cons, List.filter_cons]
    by_cases hb : isBlankLine l
    · simp [hb, ih]
    · simp [hb]

theorem filter_nb_dropTrail (L : List (List Char)) :
    (dropTrailBlank L).filter (fun l => !isBlankLine l)
      = L.filter (fun l => !isBlankLine l) := by
  induction L with
  | nil => rfl
  | cons l ls ih =>
    simp only [dropTrailBlank]
    by_cases hr : (dropTrailBlank ls).isEmpty
    · have hnil : dropTrailBlank ls = [] := by
        cases h : dropTrailBlank ls with
        | nil => rfl
        | cons a b => rw [h] at hr; simp [List.isEmpty] at hr
      rw [hnil] at ih
      simp only [hr, if_true]
      rw [List.filter_cons, ← ih]
      by_cases hb : isBlankLine l
      · simp [hb]
      · simp [hb]
    · simp only [hr, Bool.false_eq_true, if_false]
      rw [List.filter_cons, List.filter_cons]
      by_cases hb : isBlankLine l
      · simp [hb, ih]
      · simp [hb, ih]

theorem splitOnChar_no_sep (sep : Char) (w : List Char) :
    ∀ l ∈ splitOnChar sep w, ∀ c ∈ l, ¬ c = sep := by
  induction w with
  | nil =>
    intro l hl c hc
    simp only [splitOnChar, List.mem_singleton] at hl
    subst hl
    cases hc
  | cons a as ih =>
    intro l hl c hc
    simp only [splitOnChar] at hl
    by_cases ha : a = sep
    · rw [if_pos ha] at hl
      rcases List.mem_cons.mp hl with rfl | h2
      · cases hc
      · exact ih l h2 c hc
    · rw [if_neg ha] at hl
      match hsp : splitOnChar sep as with
      | [] => exact absurd hsp (splitOnChar_ne_nil sep as)
      | h :: t =>
        rw [hsp] at hl
        rcases List.mem_cons.mp hl with rfl | h2
        · rcases List.mem_cons.mp hc with rfl | h3
          · exact ha
          · exact ih h (hsp ▸ List.mem_cons_self _ _) c h3
        · exact ih l (hsp ▸ List.mem_cons_of_mem _ h2) c hc

theorem splitOnChar_nlfree (sep : Char) (l : List Char) (h : ∀ c ∈ l, ¬ c = sep) :
    splitOnChar sep l = [l] := by
  induction l with
  | nil => rfl
  | cons c cs ih =>
    simp only [splitOnChar]
    rw [if_neg (h c (List.mem_cons_self _ _)), ih (fun c hc => h c (List.mem_cons_of_mem _ hc))]

theorem splitOnChar_append_sep (sep : Char) (x y : List Char) (h : ∀ c ∈ x, ¬ c = sep) :
    splitOnChar sep (x ++ sep :: y) = x :: splitOnChar sep y := by
  induction x with
  | nil => simp [splitOnChar]
  | cons a x' ih =>
    simp only [List.cons_append, splitOnChar, List.append_eq]
    rw [if_neg (h a (List.mem_cons_self _ _)), ih (fun c hc => h c (List.mem_cons_of_mem _ hc))]

theorem splitOnChar_joinNL (L : List (List Char)) :
    L ≠ [] → (∀ l ∈ L, ∀ c ∈ l, ¬ c = '\n') → splitOnChar '\n' (joinNL L) = L := by
  induction L with
  | nil => intro hne _; cases hne rfl
  | cons l ls ih =>
    intro _ hnl
    cases ls with
    | nil =>
      simp only [joinNL]
      exact splitOnChar_nlfree '\n' l (hnl l (List.mem_cons_self _ _))
    | cons m ms =>
      show splitOnChar '\n' (l ++ '\n' :: joinNL (m :: ms)) = l :: m :: ms
      rw [splitOnChar_append_sep '\n' l _ (hnl l (List.mem_cons_self _ _))]
      rw [ih (by simp) (fun l' hl' => hnl l' (List.mem_cons_of_mem _ hl'))]

theorem dropTrailBlank_sublist (L : List (List Char)) : List.Sublist (dropTrailBlank L) L := by
  induction L with
  | nil => exact List.Sublist.refl []
  | cons l ls ih =>
    simp only [dropTrailBlank]
    by_cases hr : (dropTrailBlank ls).isEmpty
    · simp only [hr, if_true]
      by_cases hb : isBlankLine l
      · simp only [hb, if_true]
        exact List.nil_sublist _
      · simp only [hb, Bool.false_eq_true, if_false]
        exact (List.nil_sublist ls).cons₂ l
    · simp only [hr, Bool.false_eq_true, if_false]
      exact ih.cons₂ l

theorem dropTrailBlank_head (Q : List (List Char)) :
    ∀ l r, dropTrailBlank Q = l :: r → Q.head? = some l := by
  induction Q with
  | nil => intro l r h; cases h
  | cons q qs ih =>
    intro l r h
    simp only [dropTrailBlank] at h
    by_cases hr : (dropTrailBlank qs).isEmpty
    · rw [if_pos hr] at h
      by_cases hb : isBlankLine q
      · rw [if_pos hb] at h
        cases h
      · rw [if_neg hb] at h
        injection h with h1 _
        rw [h1]
        rfl
    · rw [if_neg hr] at h
      injection h with h1 _
      rw [h1]
      rfl

theorem dropTrailBlank_getLast (Q : List (List Char)) :
    ∀ x, (dropTrailBlank Q).getLast? = some x → isBlankLine x = false := by
  induction Q with
  | nil => intro x h; cases h
  | cons q qs ih =>
    intro x h
    simp only [dropTrailBlank] at h
    by_cases hr : (dropTrailBlank qs).isEmpty
    · rw [if_pos hr] at h
      by_cases hb : isBlankLine q
      · rw [if_pos hb] at h
        cases h
      · rw [if_neg hb] at h
        simp only [List.getLast?_singleton, Option.some.injEq] at h
        rw [← h]
        exact Bool.not_eq_true _ ▸ hb
    · rw [if_neg hr] at h
      match hq : dropTrailBlank qs with
      | [] => rw [hq] at hr; simp [List.isEmpty] at hr
      | m :: ms =>
        rw [hq] at h
        rw [List.getLast?_cons_cons] at h
        exact ih x (hq ▸ h)

theorem dropWhile_head_false (p : List Char → Bool) (L : List (List Char)) :
    ∀ l r, L.dropWhile p = l :: r → p l = false := by
  induction L with
  | nil => intro l r h; cases h
  | cons q qs ih =>
    intro l r h
    rw [List.dropWhile_cons] at h
    by_cases hq : p q
    · rw [if_pos hq] at h
      exact ih l r h
    · rw [if_neg hq] at h
      injection h with h1 _
      rw [← h1]
      exact Bool.not_eq_true _ ▸ hq

/--
The collapse stage as the amended claim words it: split the text into
maximal runs of consecutive newline characters; a run of three or more
newlines is replaced by exactly two (one blank line); runs of one or two
newlines are kept unchanged; every other character is untouched.  Written
from the claim, to be compared with the source collapse stage
(collapseNLAux 0).  Fueled like the scanners (fuel = input length).
-/
def truncRunsF : Nat → List Char → List Char
  | 0, s => s
  | _ + 1, [] => []
  | f + 1, c :: cs =>
    if c = '\n' then
      (if 3 ≤ 1 + (cs.takeWhile (fun d => d = '\n')).length then ['\n', '\n']
       else List.replicate (1 + (cs.takeWhile (fun d => d = '\n')).length) '\n') ++
        truncRunsF f (cs.dropWhile (fun d => d = '\n'))
    else c :: truncRunsF f cs

def collapseRunsSpec (s : List Char) : List Char := truncRunsF s.length s

example : collapseRunsSpec "a\n\n\n\n\nb".toList = "a\n\nb".toList := by rfl
example : collapseNLAux 0 "a\n\n\n\n\nb".toList = "a\n\nb".toList := by rfl
example : collapseRunsSpec "a\n\nb".toList = "a\n\nb".toList := by rfl
example : collapseRunsSpec "a\nb".toList = "a\nb".toList := by rfl

theorem dropWhile_head_not {A : Type} (p : A → Bool) (L : List A) :
    ∀ l r, L.dropWhile p = l :: r → p l = false := by
  induction L with
  | nil => intro l r h; cases h
  | cons q qs ih =>
    intro l r h
    rw [List.dropWhile_cons] at h
    by_cases hq : p q
    · rw [if_pos hq] at h
      exact ih l r h
    · rw [if_neg hq] at h
      injection h with h1 _
      rw [← h1]
      exact Bool.not_eq_true _ ▸ hq

theorem truncRunsF_fuel : ∀ f g : Nat, ∀ s : List Char, s.length ≤ f → s.length ≤ g →
    truncRunsF f s = truncRunsF g s := by
  intro f
  induction f with
  | zero =>
    intro g s hf _
    have hs : s = [] := List.length_eq_zero.mp (Nat.le_zero.mp hf)
    subst hs
    cases g <;> rfl
  | succ f ih =>
    intro g s hf hg
    match s with
    | [] => cases g <;> rfl
    | c :: cs =>
      match g with
      | 0 => simp at hg
      | g + 1 =>
        have hcs : cs.length ≤ f := by simpa [Nat.succ_le_succ_iff] using hf
        have hcsg : cs.length ≤ g := by simpa [Nat.succ_le_succ_iff] using hg
        have hrest : (cs.dropWhile (fun d => d = '\n')).length ≤ cs.length :=
          (List.dropWhile_sublist _).length_le
        simp only [truncRunsF]
        by_cases hc : c = '\n'
        · rw [if_pos hc, if_pos hc,
            ih g _ (le_trans hrest hcs) (le_trans hrest hcsg)]
        · rw [if_neg hc, if_neg hc, ih g cs hcs hcsg]

theorem collapseNLAux_reset (n : Nat) (x : List Char) (h : x.head? ≠ some '\n') :
    collapseNLAux n x = collapseNLAux 0 x := by
  match x with
  | [] => rfl
  | c :: cs =>
    have hc : ¬ c = '\n' := by
      intro hcc
      exact h (by rw [hcc]; rfl)
    simp [collapseNLAux, hc]

theorem collapseNLAux_drop_run (j : Nat) (rest : List Char) :
    ∀ n, 2 ≤ n → collapseNLAux n (List.replicate j '\n' ++ rest) = collapseNLAux n rest := by
  induction j with
  | zero => intro n _; rfl
  | succ j ih =>
    intro n hn
    simp only [List.replicate, List.cons_append]
    simp [collapseNLAux, hn, ih n hn]

theorem collapseNLAux_run_step (j : Nat) (rest : List Char) (h : rest.head? ≠ some '\n') :
    collapseNLAux 1 (List.replicate j '\n' ++ rest)
      = (if j = 0 then [] else ['\n']) ++ collapseNLAux 0 rest := by
  match j with
  | 0 =>
    simp only [List.replicate, List.nil_append, if_pos rfl]
    rw [collapseNLAux_reset 1 rest h]
    rfl
  | j + 1 =>
    simp only [List.replicate, List.cons_append]
    rw [show collapseNLAux 1 ('\n' :: (List.replicate j '\n' ++ rest))
        = '\n' :: collapseNLAux 2 (List.replicate j '\n' ++ rest) from by
      simp [collapseNLAux]]
    rw [collapseNLAux_drop_run j rest 2 (Nat.le_refl 2), collapseNLAux_reset 2 rest h]
    simp

theorem takeWhile_nl_replicate (cs : List Char) :
    cs.takeWhile (fun d => d = '\n')
      = List.replicate (cs.takeWhile (fun d => d = '\n')).length '\n' := by
  rw [List.eq_replicate_iff]
  refine ⟨rfl, ?_⟩
  intro b hb
  have h2 := List.mem_takeWhile_imp hb
  exact of_decide_eq_true h2

theorem dropWhile_nl_head (cs : List Char) :
    (cs.dropWhile (fun d => d = '\n')).head? ≠ some '\n' := by
  match hd : cs.dropWhile (fun d => d = '\n') with
  | [] => simp
  | x :: r =>
    have hx := dropWhile_head_not (fun d => d = '\n') cs x r hd
    simp only [List.head?_cons, ne_eq, Option.some.injEq]
    intro hxe
    rw [hxe] at hx
    simp at hx

theorem collapse_meets_spec_aux (N : Nat) :
    ∀ s : List Char, s.length ≤ N → collapseNLAux 0 s = collapseRunsSpec s := by
  induction N with
  | zero =>
    intro s hs
    have h0 : s = [] := List.length_eq_zero.mp (Nat.le_zero.mp hs)
    subst h0
    rfl
  | succ N ih =>
    intro s hs
    match s with
    | [] => rfl
    | c :: cs =>
      have hcs : cs.length ≤ N := by simpa [Nat.succ_le_succ_iff] using hs
      by_cases hc : c = '\n'
      · subst hc
        have hrestlen : (cs.dropWhile (fun d => d = '\n')).length ≤ cs.length :=
          (List.dropWhile_sublist _).length_le
        have hcseq : cs = List.replicate (cs.takeWhile (fun d => d = '\n')).length '\n'
            ++ cs.dropWhile (fun d => d = '\n') := by
          conv_lhs => rw [← List.takeWhile_append_dropWhile (fun d => d = '\n') cs]
          rw [← takeWhile_nl_replicate cs]
        have hlhs : collapseNLAux 0 ('\n' :: cs) = '\n' :: collapseNLAux 1 cs := by
          simp [collapseNLAux]
        have hstep : collapseNLAux 1 cs
            = (if (cs.takeWhile (fun d => d = '\n')).length = 0 then [] else ['\n'])
              ++ collapseNLAux 0 (cs.dropWhile (fun d => d = '\n')) := by
          conv_lhs => rw [hcseq]
          exact collapseNLAux_run_step _ _ (dropWhile_nl_head cs)
        have hrec : collapseNLAux 0 (cs.dropWhile (fun d => d = '\n'))
            = collapseRunsSpec (cs.dropWhile (fun d => d = '\n')) :=
          ih _ (le_trans hrestlen hcs)
        have hrhs : collapseRunsSpec ('\n' :: cs)
            = (if 3 ≤ 1 + (cs.takeWhile (fun d => d = '\n')).length then ['\n', '\n']
               else List.replicate (1 + (cs.takeWhile (fun d => d = '\n')).length) '\n') ++
              collapseRunsSpec (cs.dropWhile (fun d => d = '\n')) := by
          simp only [collapseRunsSpec, List.length_cons, truncRunsF, if_pos rfl, if_true]
          rw [truncRunsF_fuel cs.length (cs.dropWhile (fun d => d = '\n')).length _
            hrestlen (Nat.le_refl _)]
        rw [hlhs, hstep, hrec, hrhs]
        match hj : (cs.takeWhile (fun d => d = '\n')).length with
        | 0 => simp
        | 1 => simp [List.replicate]
        | j + 2 =>
          rw [if_neg (by omega), if_pos (by omega)]
          simp
      · have hlhs : collapseNLAux 0 (c :: cs) = c :: collapseNLAux 0 cs := by
          simp [collapseNLAux, hc]
        have hrhs : collapseRunsSpec (c :: cs) = c :: collapseRunsSpec cs := by
          simp only [collapseRunsSpec, List.length_cons, truncRunsF, if_neg hc]
        rw [hlhs, hrhs, ih cs hcs]

/--
The collapse stage of clean_whitespace meets the amended claim: every
maximal run of three or more consecutive newline characters becomes exactly
two newlines (one blank line), and runs of one or two newlines are kept.
-/
theorem collapse_meets_spec (t : List Char) : collapseNLAux 0 t = collapseRunsSpec t :=
  collapse_meets_spec_aux t.length t (Nat.le_refl _)

/--
C8 amended.  clean_whitespace first collapses each maximal run of three or
more newline characters to exactly two (one blank line; the collapse stage
equals the claim-worded run truncation collapseRunsSpec, and the whole
normalization equals its own pipeline with the collapse stage replaced by
collapseRunsSpec), then strips whitespace-bearing blank lines to empty
without collapsing their runs, then removes leading and trailing blank
lines.  Further conjuncts: content-bearing (non-blank) lines survive
byte-for-byte and in order; every blank line of the output is empty
(trailing whitespace is stripped only from blank lines); a non-empty
output neither starts nor ends with a blank line.
-/
theorem clean_whitespace_spec (t : List Char) :
    (splitOnChar '\n' (clean_whitespace t)).filter (fun l => !isBlankLine l)
      = (splitOnChar '\n' t).filter (fun l => !isBlankLine l) ∧
    (∀ l ∈ splitOnChar '\n' (clean_whitespace t), isBlankLine l = true → l = []) ∧
    (∀ h, clean_whitespace t ≠ [] →
      (splitOnChar '\n' (clean_whitespace t)).head? = some h → isBlankLine h = false) ∧
    (∀ h, clean_whitespace t ≠ [] →
      (splitOnChar '\n' (clean_whitespace t)).getLast? = some h → isBlankLine h = false) ∧
    collapseNLAux 0 t = collapseRunsSpec t ∧
    clean_whitespace t = joinNL (dropTrailBlank (List.dropWhile isBlankLine
      ((splitOnChar '\n' (collapseRunsSpec t)).map stripIfBlank))) := by
  have hclean : clean_whitespace t
      = joinNL (dropTrailBlank (List.dropWhile isBlankLine
          ((splitOnChar '\n' (collapseNLAux 0 t)).map stripIfBlank))) := rfl
  have hchain : (dropTrailBlank (List.dropWhile isBlankLine
        ((splitOnChar '\n' (collapseNLAux 0 t)).map stripIfBlank))).filter
          (fun l => !isBlankLine l)
      = (splitOnChar '\n' t).filter (fun l => !isBlankLine l) := by
    rw [filter_nb_dropTrail, filter_nb_dropWhile, filter_nb_map_strip, collapse_filter_nb]
  have hmemM := splitOnChar_no_sep '\n' (collapseNLAux 0 t)
  have hmem : ∀ l ∈ dropTrailBlank (List.dropWhile isBlankLine
        ((splitOnChar '\n' (collapseNLAux 0 t)).map stripIfBlank)),
      ∃ x ∈ splitOnChar '\n' (collapseNLAux 0 t), l = stripIfBlank x := by
    intro l hl
    have h1 : l ∈ List.dropWhile isBlankLine
        ((splitOnChar '\n' (collapseNLAux 0 t)).map stripIfBlank) :=
      (dropTrailBlank_sublist _).subset hl
    have h2 : l ∈ (splitOnChar '\n' (collapseNLAux 0 t)).map stripIfBlank :=
      (List.dropWhile_sublist _).subset h1
    obtain ⟨x, hx, hxl⟩ := List.mem_map.mp h2
    exact ⟨x, hx, hxl.symm⟩
  have hLnl : ∀ l ∈ dropTrailBlank (List.dropWhile isBlankLine
        ((splitOnChar '\n' (collapseNLAux 0 t)).map stripIfBlank)),
      ∀ c ∈ l, ¬ c = '\n' := by
    intro l hl c hc
    obtain ⟨x, hx, rfl⟩ := hmem l hl
    by_cases hb : isBlankLine x
    · simp [stripIfBlank, hb] at hc
    · simp only [stripIfBlank, hb, Bool.false_eq_true, if_false] at hc
      exact hmemM x hx c hc
  have hLblank : ∀ l ∈ dropTrailBlank (List.dropWhile isBlankLine
        ((splitOnChar '\n' (collapseNLAux 0 t)).map stripIfBlank)),
      isBlankLine l = true → l = [] := by
    intro l hl hb
    obtain ⟨x, hx, rfl⟩ := hmem l hl
    by_cases hbx : isBlankLine x
    · simp [stripIfBlank, hbx]
    · have hsx : stripIfBlank x = x := by simp [stripIfBlank, hbx]
      rw [hsx] at hb
      exact absurd hb hbx
  cases hL : dropTrailBlank (List.dropWhile isBlankLine
      ((splitOnChar '\n' (collapseNLAux 0 t)).map stripIfBlank)) with
  | nil =>
    have hcl : clean_whitespace t = [] := by rw [hclean, hL]; rfl
    rw [hL] at hchain
    simp only [List.filter_nil] at hchain
    refine ⟨?_, ?_, ?_, ?_, collapse_meets_spec t, ?_⟩
    · rw [hcl]
      rw [show (splitOnChar '\n' ([] : List Char)).filter (fun l => !isBlankLine l) = []
        from rfl]
      exact hchain
    · intro l hl _
      rw [hcl] at hl
      simp only [splitOnChar, List.mem_singleton] at hl
      exact hl
    · intro h hne _
      rw [hcl] at hne
      exact absurd rfl hne
    · intro h hne _
      rw [hcl] at hne
      exact absurd rfl hne
    · rw [← collapse_meets_spec t]
      exact hclean
  | cons l0 L' =>
    have hround : splitOnChar '\n' (clean_whitespace t) = l0 :: L' := by
      rw [hclean]
      rw [splitOnChar_joinNL _ (by rw [hL]; simp) hLnl]
      exact hL
    refine ⟨?_, ?_, ?_, ?_, collapse_meets_spec t, ?_⟩
    · rw [hround]
      rw [hL] at hchain
      exact hchain
    · intro l hl hb
      rw [hround] at hl
      exact hLblank l (hL ▸ hl) hb
    · intro h hne hh
      rw [hround] at hh
      simp only [List.head?_cons, Option.some.injEq] at hh
      subst hh
      have hQ := dropTrailBlank_head _ l0 L' hL
      cases hQc : List.dropWhile isBlankLine
          ((splitOnChar '\n' (collapseNLAux 0 t)).map stripIfBlank) with
      | nil => rw [hQc] at hQ; cases hQ
      | cons q qs =>
        rw [hQc] at hQ
        simp only [List.head?_cons, Option.some.injEq] at hQ
        rw [← hQ]
        exact dropWhile_head_false isBlankLine _ q qs hQc
    · intro h hne hh
      rw [hround] at hh
      exact dropTrailBlank_getLast _ h (by rw [hL]; exact hh)
    · rw [← collapse_meets_spec t]
      exact hclean

/-- Witness for clean_whitespace_spec at a concrete input. -/
theorem clean_whitespace_spec_witness :
    (splitOnChar '\n' (clean_whitespace "x\n \ny".toList)).filter (fun l => !isBlankLine l)
      = (splitOnChar '\n' "x\n \ny".toList).filter (fun l => !isBlankLine l) ∧
    isBlankLine "x".toList = false :=
  ⟨(clean_whitespace_spec "x\n \ny".toList).1,
   (clean_whitespace_spec "x\n \ny".toList).2.2.1 "x".toList (by decide) (by rfl)⟩

/-! ## C9: conditional block rendering -/

theorem c9_core (nowDate : String) (tag : List Char) (pred : Dict → Option Bool)
    (ctx : Dict) (b : Bool)
    (hne : mkTemplateC9 tag ≠ [])
    (hscan : scanTags (mkTemplateC9 tag) = [tag, 'e' :: 'n' :: 'd' :: tag])
    (hstart : startsWithEnd tag = false)
    (hdup : ('e' :: 'n' :: 'd' :: tag) ≠ tag)
    (hlook : tagLookup (CONDITIONAL_MAPPINGS nowDate) tag = some pred)
    (hkeep : keep_block (mkTemplateC9 tag) tag = "AB".toList)
    (hrem : remove_block (mkTemplateC9 tag) tag = "B".toList)
    (hb : pred ctx = some b) :
    render_template nowDate (mkTemplateC9 tag) ctx
      = some ((if b then "AB" else "B").toList) := by
  unfold render_template
  rw [if_neg (by simpa using hne)]
  unfold process_conditionals
  rw [hscan]
  have hded : dedupTags [tag, 'e' :: 'n' :: 'd' :: tag] = [tag, 'e' :: 'n' :: 'd' :: tag] := by
    simp [dedupTags, dedupAux, hdup]
  rw [hded]
  have hswe : startsWithEnd ('e' :: 'n' :: 'd' :: tag) = true := by
    simp [startsWithEnd]
  simp only [List.foldl, pcStep, hstart, hlook, hb, hswe, Bool.false_eq_true, if_false,
    if_true, Option.map]
  cases b with
  | true =>
    simp only [if_true]
    rw [hkeep, substitute_variables_id _ ctx (by decide)]
    rfl
  | false =>
    simp only [Bool.false_eq_true, if_false]
    rw [hrem, substitute_variables_id _ ctx (by decide)]
    rfl

/--
C9.  For any registered conditional marker X whose predicate evaluates to b
in the given context, rendering the template open-X A end-X B yields
exactly AB when b is true and exactly B when b is false (after whitespace
normalization).  A context on which the registered predicate raises is
outside the hypothesis (the render raises too).
-/
theorem conditional_block_renders (nowDate : String) (tag : List Char)
    (pred : Dict → Option Bool) (ctx : Dict) (b : Bool)
    (hmem : (tag, pred) ∈ CONDITIONAL_MAPPINGS nowDate)
    (hb : pred ctx = some b) :
    render_template nowDate (mkTemplateC9 tag) ctx
      = some ((if b then "AB" else "B").toList) := by
  fin_cases hmem <;>
    exact c9_core nowDate _ _ ctx b (by decide) (by rfl) (by rfl) (by decide) (by rfl)
      (by rfl) (by rfl) hb

/-- Witness for conditional_block_renders: the en marker on the empty context. -/
theorem conditional_block_renders_witness :
    render_template "2024-01-01" (mkTemplateC9 "en".toList) [] = some "AB".toList := by
  have h := conditional_block_renders "2024-01-01" "en".toList
    (fun ctx => some (pyEq (dgetD ctx "language" (sv "en")) (sv "en"))) [] true
    (by unfold CONDITIONAL_MAPPINGS; exact List.mem_cons_self _ _) (by rfl)
  simpa using h

/-! ## Node engine (app/utils/node_engine.py)

process is modelled as a pure function of the turn inputs.  The extraction
collaborator result (already cleaned of nulls by extract_variables) is the
extracted parameter; HTTP outcomes are the out parameter (indexed by the
position of the API in the node's declared list); the clock is the nowDate
parameter.  Store side effects (set_current_node, transcript markers and
the write-back of the context) mutate the context store and are not part
of the returned decision bundle, which this model captures.
-/

structure BodyItem where
  key : String
  value : List Char

/-- One response_data item: context key and dotted path (default the key). -/
structure RespMap where
  key : String
  path : Option String

inductive ApiSpec where
  | post (url : String) (body : List BodyItem) (respData : List RespMap)
  | getA (url : List Char)

/-- The externally observed outcome of one HTTP call. -/
inductive Outcome where
  | transportErr (msg : String)
  | resp (status : Int) (body : PyVal) (text : String)

/-- The typed value produced by substitute_api_body type coercion. -/
inductive BodyVal where
  | b (x : Bool)
  | i (x : Int)
  | f (x : Rat)
  | s (x : List Char)

/--
The value coercion of substitute_api_body: the strings true and false
become booleans, digit strings become ints, float-parsable strings become
floats, anything else stays a string.
-/
def convertBodyValue (v : List Char) : BodyVal :=
  if v.map Char.toLower = "true".toList then BodyVal.b true
  else if v.map Char.toLower = "false".toList then BodyVal.b false
  else if !v.isEmpty && v.all Char.isDigit then BodyVal.i ((digitsToNat v : Nat) : Int)
  else
    match pyFloatOfStr (String.mk v) with
    | some q => BodyVal.f q
    | Option.none => BodyVal.s v

/-- substitute_api_body: substitute context values into each body item. -/
def substitute_api_body (body : List BodyItem) (ctx : Dict) : List (String × BodyVal) :=
  body.map (fun item => (item.key, convertBodyValue (substitute_variables item.value ctx)))

/-- path.split on dots. -/
def splitPath (p : String) : List String :=
  (splitOnChar '.' p.toList).map String.mk

/--
The nested-path walk of the response mapping: descend through dict keys;
a missing key or a non-dict intermediate yields None.
-/
def walkPath : List String → PyVal → PyVal
  | [], v => v
  | p :: ps, v =>
    match v with
    | PyVal.obj fs => walkPath ps (dget fs p)
    | _ => PyVal.none

/-- One API of NodeEngine.execute_apis, given its outcome. -/
def execApi (nowDate : String) (ctx : Dict) (api : ApiSpec) (oc : Outcome) : Dict :=
  match api with
  | ApiSpec.post _url bodyItems respData =>
    let _body := substitute_api_body bodyItems ctx
    match oc with
    | Outcome.transportErr m => dset ctx "api_error" (sv m)
    | Outcome.resp status body text =>
      let ctx1 := dset ctx "api_status_code" (PyVal.int status)
      if status = 200 then
        respData.foldl (fun acc rm =>
          let v := walkPath (splitPath (rm.path.getD rm.key)) body
          if pyIsNone v then acc else dset acc rm.key v) ctx1
      else dset ctx1 "api_error" (sv ("Status " ++ toString status ++ ": " ++ text))
  | ApiSpec.getA urlT =>
    match render_template nowDate urlT ctx with
    | Option.none => dset ctx "api_error" (sv "template render error")
    | some _u =>
      match oc with
      | Outcome.transportErr m => dset ctx "api_error" (sv m)
      | Outcome.resp status body _text =>
        let ctx1 := dset ctx "api_status_code" (PyVal.int status)
        if status = 200 then dset ctx1 "api_response" body
        else dset ctx1 "api_error" (sv ("Status " ++ toString status))

/--
execute_apis: run the node's declared APIs in order, recording outcomes
into the context; every failure is recorded, never raised (the function is
total by construction: the Python except arm is the transportErr case).
-/
def execute_apis (nowDate : String) (apis : List ApiSpec) (out : Nat → Outcome)
    (ctx : Dict) : Dict :=
  apis.enum.foldl (fun acc ia => execApi nowDate acc ia.2 (out ia.1)) ctx

/--
normalize_dob: falsy input maps to None; an 8-digit cleanup is returned;
otherwise strip().lower() of the original, which raises on a non-string.
-/
def normalize_dob (v : PyVal) : Option (Option String) :=
  if !truthy v then some Option.none
  else
    let cleaned := (pyStr v).filter Char.isDigit
    if cleaned.length = 8 then some (some (String.mk cleaned))
    else
      match v with
      | PyVal.str s => some (some (strLower (String.mk (pyStrip s.toList))))
      | _ => Option.none

/--
Step 4 of NodeEngine.process: at n68 with an extracted DOB, compare the
normalized forms and set the verified or mismatch flag pair.  The outer
none is the (uncaught) exception from normalize_dob on a non-string.
-/
def dobStep (node_id : String) (ex ctx : Dict) : Option Dict :=
  if node_id == "n68" && truthy (dget ex "extracted_dob") then
    match normalize_dob (dget ex "extracted_dob"), normalize_dob (dgetD ctx "DOB" (sv "")) with
    | some na, some nf =>
      match na, nf with
      | some a, some onf =>
        if a ≠ "" ∧ onf ≠ "" then
          if a = onf then
            some (dset (dset ex "dob_verified" (PyVal.bool true)) "dob_correct"
              (PyVal.bool true))
          else
            some (dset (dset ex "dob_mismatch" (PyVal.bool true)) "dob_incorrect"
              (PyVal.bool true))
        else some ex
      | _, _ => some ex
    | _, _ => Option.none
  else some ex

/-- Step 4.5: sync the payment date variable names for template compatibility. -/
def syncStep (ex : Dict) : Dict :=
  let pd := dget ex "user_provided_payment_date"
  if truthy pd && !pyMem pd [sv "NA", sv "N/A", PyVal.none, sv ""] then
    dset ex "upd_extracted_payment_date" pd
  else ex

/-- The per-node configuration consulted by process (apis and prompt). -/
structure NodeCfg where
  apis : List ApiSpec
  prompt : List Char

/-- get_rendered_prompt: None when the node has no prompt template. -/
def get_rendered_prompt (nowDate : String) (nc : NodeCfg) (ctx : Dict) :
    Option (Option (List Char)) :=
  if nc.prompt.isEmpty then some Option.none
  else (render_template nowDate nc.prompt ctx).map some

/-- The decision bundle returned by one orchestrator turn. -/
structure Bundle where
  next_node : String
  prompt : Option (List Char)
  context : Dict
  should_update_agent : Bool

/--
NodeEngine.process for one turn: DOB logic, payment-date sync, context
merge, transition, early END return, conditional API execution, and
conditional prompt render; should_update_agent is next_node differing from
the starting node (false on the END path).
-/
def process (nowDate : String) (cfg : String → NodeCfg) (out : Nat → Outcome)
    (node_id : String) (extracted : Dict) (ctx : Dict) : Option Bundle :=
  match dobStep node_id extracted ctx with
  | Option.none => Option.none
  | some ex1 =>
    let ex2 := syncStep ex1
    let ctx1 := update_context ctx ex2
    let next := get_next_node node_id ex2 ctx1
    if next = "END" then
      some ⟨"END", Option.none, ctx1, false⟩
    else
      let ctx2 := if (next != node_id) && !(cfg next).apis.isEmpty then
          execute_apis nowDate (cfg next).apis out ctx1
        else ctx1
      if next ≠ node_id then
        match get_rendered_prompt nowDate (cfg next) ctx2 with
        | Option.none => Option.none
        | some p => some ⟨next, p, ctx2, true⟩
      else some ⟨next, Option.none, ctx2, false⟩

example : process "2024-01-01" (fun _ => ⟨[], []⟩) (fun _ => Outcome.transportErr "")
    "n25" [] [] = some ⟨"END", Option.none, [], false⟩ := by rfl
example : process "2024-01-01" (fun _ => ⟨[], []⟩) (fun _ => Outcome.transportErr "")
    "n61" [] [] = some ⟨"n61", Option.none, [], false⟩ := by rfl
example : process "2024-01-01" (fun _ => ⟨[], "hi".toList⟩) (fun _ => Outcome.transportErr "")
    "n61" [("party_name", sv "Sam")] []
    = some ⟨"n68", some "hi".toList, [("party_name", sv "Sam")], true⟩ := by rfl

theorem get_next_node_self (cur : String) (v ctx : Dict)
    (hg : ∀ r ∈ GLOBAL_TRIGGERS, r.cond v ctx ≠ some true)
    (hn : ∀ r ∈ nodeRules cur, r.cond v ctx ≠ some true) :
    get_next_node cur v ctx = cur := by
  unfold get_next_node
  rw [(scanRules_none_iff v ctx GLOBAL_TRIGGERS).mpr hg,
      (scanRules_none_iff v ctx (nodeRules cur)).mpr hn]

/--
C3.  When no global trigger and no node rule evaluates to true, the
transition engine self-loops; and an orchestrator turn with empty
extraction and no matching rule returns the bundle with next node equal to
the current node, no prompt, and should_update_agent false (no prompt
re-render happens).
-/
theorem self_loop_no_update (nowDate : String) (cfg : String → NodeCfg) (out : Nat → Outcome)
    (cur : String) (v ctx : Dict)
    (hg : ∀ r ∈ GLOBAL_TRIGGERS, r.cond v ctx ≠ some true)
    (hn : ∀ r ∈ nodeRules cur, r.cond v ctx ≠ some true)
    (hg0 : ∀ r ∈ GLOBAL_TRIGGERS, r.cond [] ctx ≠ some true)
    (hn0 : ∀ r ∈ nodeRules cur, r.cond [] ctx ≠ some true) :
    get_next_node cur v ctx = cur ∧
    process nowDate cfg out cur [] ctx = some ⟨cur, Option.none, ctx, false⟩ := by
  refine ⟨get_next_node_self cur v ctx hg hn, ?_⟩
  have hdob : dobStep cur [] ctx = some [] := by
    simp [dobStep, dget, dlookup, truthy]
  have hnext : get_next_node cur [] ctx = cur := get_next_node_self cur [] ctx hg0 hn0
  unfold process
  rw [hdob]
  have hsync : syncStep [] = [] := by rfl
  have hupd : update_context ctx [] = ctx := rfl
  simp only [hsync, hupd, hnext]
  by_cases hend : cur = "END"
  · rw [if_pos hend, hend]
  · rw [if_neg hend]
    simp

/-- Witness for self_loop_no_update at a concrete input (node n61). -/
theorem self_loop_no_update_witness :
    get_next_node "n61" [] [] = "n61" ∧
    process "2024-01-01" (fun _ => NodeCfg.mk [] []) (fun _ => Outcome.transportErr "")
      "n61" [] [] = some ⟨"n61", Option.none, [], false⟩ :=
  self_loop_no_update "2024-01-01" (fun _ => NodeCfg.mk [] [])
    (fun _ => Outcome.transportErr "") "n61" [] []
    (by decide) (by decide) (by decide) (by decide)

/--
C6 counterexample.  A turn whose transition lands on the terminal
pseudo-node (here from n25, whose single rule is always true) returns a
bundle whose next node END differs from the starting node, yet
should_update_agent is false, refuting true exactly when the node changed
for END turns.
-/
theorem end_turn_flag_counterexample :
    process "2024-01-01" (fun _ => NodeCfg.mk [] []) (fun _ => Outcome.transportErr "")
      "n25" [] [] = some ⟨"END", Option.none, [], false⟩ ∧
    ("END" : String) ≠ "n25" :=
  ⟨by rfl, by decide⟩

/--
C6 amended.  should_update_agent is true exactly when the next node differs
from the starting node AND is not the terminal pseudo-node END; an END turn
returns no prompt and should_update_agent false.
-/
theorem update_flag_iff_node_changed (nowDate : String) (cfg : String → NodeCfg)
    (out : Nat → Outcome) (node_id : String) (extracted ctx : Dict) (b : Bundle)
    (h : process nowDate cfg out node_id extracted ctx = some b) :
    (b.should_update_agent = true ↔ (b.next_node ≠ node_id ∧ b.next_node ≠ "END")) ∧
    (b.next_node = "END" → b.prompt = Option.none ∧ b.should_update_agent = false) := by
  unfold process at h
  cases hdob : dobStep node_id extracted ctx with
  | none =>
    rw [hdob] at h
    cases h
  | some ex1 =>
    rw [hdob] at h
    simp only at h
    split at h
    · rename_i hend
      injection h with h1
      subst h1
      constructor
      · simp
      · intro _
        exact ⟨rfl, rfl⟩
    · rename_i hend
      split at h
      · rename_i hneq
        split at h
        · cases h
        · rename_i p hp
          injection h with h1
          subst h1
          constructor
          · simp [hneq, hend]
          · intro he
            exact absurd he hend
      · rename_i hneq
        push_neg at hneq
        injection h with h1
        subst h1
        constructor
        · simp [hneq]
        · intro _
          exact ⟨rfl, rfl⟩

/-- Witness for update_flag_iff_node_changed at a concrete input. -/
theorem update_flag_iff_node_changed_witness :
    ((Bundle.mk "n61" Option.none [] false).should_update_agent = true ↔
      ((Bundle.mk "n61" Option.none [] false).next_node ≠ "n61" ∧
       (Bundle.mk "n61" Option.none [] false).next_node ≠ "END")) ∧
    ((Bundle.mk "n61" Option.none [] false).next_node = "END" →
      (Bundle.mk "n61" Option.none [] false).prompt = Option.none ∧
      (Bundle.mk "n61" Option.none [] false).should_update_agent = false) :=
  update_flag_iff_node_changed "2024-01-01" (fun _ => NodeCfg.mk [] [])
    (fun _ => Outcome.transportErr "") "n61" [] [] (Bundle.mk "n61" Option.none [] false)
    (by rfl)

theorem respfold_not_mem (f : RespMap → PyVal) (resp : List RespMap) (k : String) :
    ∀ ctx1 : Dict, k ∉ resp.map RespMap.key →
      dlookup (resp.foldl
        (fun acc rm => if pyIsNone (f rm) then acc else dset acc rm.key (f rm)) ctx1) k
        = dlookup ctx1 k := by
  induction resp with
  | nil => intro ctx1 _; rfl
  | cons rm rest ih =>
    intro ctx1 hk
    simp only [List.map, List.mem_cons] at hk
    push_neg at hk
    simp only [List.foldl]
    rw [ih _ hk.2]
    by_cases hv : pyIsNone (f rm)
    · rw [if_pos hv]
    · rw [if_neg hv, dlookup_dset_other _ _ _ _ hk.1]

theorem respfold_mem (f : RespMap → PyVal) (resp : List RespMap) :
    ∀ ctx1 : Dict, ∀ rm ∈ resp, (resp.map RespMap.key).Nodup → pyIsNone (f rm) = false →
      dlookup (resp.foldl
        (fun acc r => if pyIsNone (f r) then acc else dset acc r.key (f r)) ctx1) rm.key
        = some (f rm) := by
  induction resp with
  | nil => intro ctx1 rm hm; cases hm
  | cons r0 rest ih =>
    intro ctx1 rm hm hnd hv
    simp only [List.map, List.nodup_cons] at hnd
    simp only [List.foldl]
    rcases List.mem_cons.mp hm with rfl | hrest
    · rw [if_neg (by simp [hv])]
      rw [respfold_not_mem f rest rm.key _ (by simpa using hnd.1)]
      exact dlookup_dset_self _ _ _
    · exact ih _ rm hrest hnd.2 hv

/--
C7.  For a node with one declared POST action, executing the actions never
raises (execute_apis is total; the Python except arm is the transportErr
case).  On a 200 response every declared response-path to context-key pair
whose path resolves to a non-null value is written into the context; on a
non-success status the failure is recorded in api_status_code and
api_error and every other key, in particular every declared mapping key,
keeps its previous (unset) value; on a transport error api_error is set
and every other key is untouched.
-/
theorem execute_apis_post_spec (nowDate url : String) (bodyItems : List BodyItem)
    (respData : List RespMap) (out : Nat → Outcome) (ctx : Dict) :
    (∀ bd t, out 0 = Outcome.resp 200 bd t → (respData.map RespMap.key).Nodup →
      ∀ rm ∈ respData, pyIsNone (walkPath (splitPath (rm.path.getD rm.key)) bd) = false →
        dlookup (execute_apis nowDate [ApiSpec.post url bodyItems respData] out ctx) rm.key
          = some (walkPath (splitPath (rm.path.getD rm.key)) bd)) ∧
    (∀ s bd t, out 0 = Outcome.resp s bd t → s ≠ 200 →
      dlookup (execute_apis nowDate [ApiSpec.post url bodyItems respData] out ctx) "api_error"
        = some (sv ("Status " ++ toString s ++ ": " ++ t)) ∧
      dlookup (execute_apis nowDate [ApiSpec.post url bodyItems respData] out ctx)
        "api_status_code" = some (PyVal.int s) ∧
      (∀ k, k ≠ "api_status_code" → k ≠ "api_error" →
        dlookup (execute_apis nowDate [ApiSpec.post url bodyItems respData] out ctx) k
          = dlookup ctx k)) ∧
    (∀ m, out 0 = Outcome.transportErr m →
      dlookup (execute_apis nowDate [ApiSpec.post url bodyItems respData] out ctx) "api_error"
        = some (sv m) ∧
      (∀ k, k ≠ "api_error" →
        dlookup (execute_apis nowDate [ApiSpec.post url bodyItems respData] out ctx) k
          = dlookup ctx k)) := by
  have hexec : execute_apis nowDate [ApiSpec.post url bodyItems respData] out ctx
      = execApi nowDate ctx (ApiSpec.post url bodyItems respData) (out 0) := rfl
  refine ⟨?_, ?_, ?_⟩
  · intro bd t hout hnd rm hm hv
    rw [hexec, hout]
    simp only [execApi, if_pos rfl]
    exact respfold_mem _ respData _ rm hm hnd hv
  · intro s bd t hout hs
    rw [hexec, hout]
    simp only [execApi, if_neg hs]
    refine ⟨dlookup_dset_self _ _ _, ?_, ?_⟩
    · rw [dlookup_dset_other _ _ _ _ (by decide)]
      exact dlookup_dset_self _ _ _
    · intro k hk1 hk2
      rw [dlookup_dset_other _ _ _ _ hk2, dlookup_dset_other _ _ _ _ hk1]
  · intro m hout
    rw [hexec, hout]
    simp only [execApi]
    exact ⟨dlookup_dset_self _ _ _, fun k hk => dlookup_dset_other _ _ _ _ hk⟩

/--
Witness for execute_apis_post_spec: a successful POST maps confirmation_id
to confirmation_number; a 500 sets the error fields and leaves
confirmation_number unset.
-/
theorem execute_apis_post_spec_witness :
    dlookup (execute_apis "2024-01-01"
        [ApiSpec.post "https://api/payment" []
          [RespMap.mk "confirmation_number" (some "confirmation_id")]]
        (fun _ => Outcome.resp 200 (PyVal.obj [("confirmation_id", sv "ABC123")]) "") [])
      "confirmation_number" = some (sv "ABC123") ∧
    dlookup (execute_apis "2024-01-01"
        [ApiSpec.post "https://api/payment" []
          [RespMap.mk "confirmation_number" (some "confirmation_id")]]
        (fun _ => Outcome.resp 500 (PyVal.obj []) "boom") [])
      "api_error" = some (sv "Status 500: boom") ∧
    dlookup (execute_apis "2024-01-01"
        [ApiSpec.post "https://api/payment" []
          [RespMap.mk "confirmation_number" (some "confirmation_id")]]
        (fun _ => Outcome.resp 500 (PyVal.obj []) "boom") [])
      "confirmation_number" = dlookup ([] : Dict) "confirmation_number" := by
  refine ⟨?_, ?_, ?_⟩
  · have h := (execute_apis_post_spec "2024-01-01" "https://api/payment" []
        [RespMap.mk "confirmation_number" (some "confirmation_id")]
        (fun _ => Outcome.resp 200 (PyVal.obj [("confirmation_id", sv "ABC123")]) "") []).1
        (PyVal.obj [("confirmation_id", sv "ABC123")]) "" rfl (by decide)
        (RespMap.mk "confirmation_number" (some "confirmation_id"))
        (List.mem_cons_self _ _) (by rfl)
    rw [h]
    rfl
  · exact ((execute_apis_post_spec "2024-01-01" "https://api/payment" []
        [RespMap.mk "confirmation_number" (some "confirmation_id")]
        (fun _ => Outcome.resp 500 (PyVal.obj []) "boom") []).2.1 500 (PyVal.obj []) "boom"
        rfl (by decide)).1
  · exact ((execute_apis_post_spec "2024-01-01" "https://api/payment" []
        [RespMap.mk "confirmation_number" (some "confirmation_id")]
        (fun _ => Outcome.resp 500 (PyVal.obj []) "boom") []).2.1 500 (PyVal.obj []) "boom"
        rfl (by decide)).2.2 "confirmation_number" (by decide) (by decide)
